import Mathlib

/-!
Verification development for the Thirty-One card game
(source: src/custom — DeckManager, GameFlowManager, GameManager,
DiscardPileManager, GameOrchestrator).

The JavaScript source is shallowly embedded:
* JS objects used as insertion-ordered maps (`suitPoints`, `suitCounts`,
  `suitCards`, `pointsBySuit`) become association lists built by folds in
  the same traversal order (JS string-keyed objects preserve insertion
  order for non-numeric keys, and the suit keys are non-numeric).
* `Array.prototype.sort` with comparator `a.value - b.value` is a stable
  ascending sort; it is embedded as a stable insertion sort, which is
  observably identical on any input.
* `Infinity` as the initial `lowestValue` is embedded by an `Option`
  accumulator whose `none` state compares greater than every value.
* Phaser container lists are `List`s in container order; the card sprite
  depth mechanism is noted at each definition that uses it.
-/

namespace ThirtyOne

/-- The four suits, as in `DeckManager.suits`. -/
inductive Suit
  | Hearts
  | Diamonds
  | Clubs
  | Spades
deriving DecidableEq, Repr

/-- The thirteen ranks, as in `DeckManager.ranks`. -/
inductive Rank
  | r2 | r3 | r4 | r5 | r6 | r7 | r8 | r9 | r10
  | J | Q | K | A
deriving DecidableEq, Repr

/-- Card values as in `DeckManager.rankOrder`: 2–10 face value, J/Q/K 10, A 11. -/
def rankOrder : Rank → Nat
  | .r2 => 2
  | .r3 => 3
  | .r4 => 4
  | .r5 => 5
  | .r6 => 6
  | .r7 => 7
  | .r8 => 8
  | .r9 => 9
  | .r10 => 10
  | .J => 10
  | .Q => 10
  | .K => 10
  | .A => 11

/-- A card: `cardData = {suit, rank}`. -/
structure Card where
  suit : Suit
  rank : Rank
deriving DecidableEq, Repr

/-- Card valuation `DeckManager.getCardValue`: looks up `rankOrder[card.cardData.rank]`. -/
def getCardValue (c : Card) : Nat := rankOrder c.rank

/-- One update step of a JS object used as a counter/accumulator:
`acc[suit] = (acc[suit] || 0) + v`, preserving key insertion order. -/
def bumpAssoc (l : List (Suit × Nat)) (s : Suit) (v : Nat) : List (Suit × Nat) :=
  match l with
  | [] => [(s, v)]
  | (t, w) :: rest => if t = s then (t, w + v) :: rest else (t, w) :: bumpAssoc rest s v

/-- JS property read `obj[suit]` with `undefined` read as `0`
(the code only reads keys in truthiness or `||`/`>` contexts). -/
def assocLookup (l : List (Suit × Nat)) (s : Suit) : Nat :=
  match l with
  | [] => 0
  | (t, w) :: rest => if t = s then w else assocLookup rest s

/-- The per-suit point totals of a hand, in suit-first-seen order
(`suitPoints` in `findWorstCardConsideringSuits`, `suitTotals` /
`pointsBySuit` in `DeckManager.calculatePoints`; the symbol-keyed and
name-keyed variants agree after the bijective symbol translation of
`getSuitNameFromSymbol`). -/
def pointsBySuit (cards : List Card) : List (Suit × Nat) :=
  cards.foldl (fun acc c => bumpAssoc acc c.suit (getCardValue c)) []

/-- The per-suit card counts of a hand (`suitCounts` in
`executePlayer2Turn`). -/
def suitCountsOf (cards : List Card) : List (Suit × Nat) :=
  cards.foldl (fun acc c => bumpAssoc acc c.suit 1) []

/-- Hand score `DeckManager.calculatePoints(...).maxPoints`: `Math.max` over the
per-suit totals; the empty hand returns `0` through the early return. -/
def maxPoints (cards : List Card) : Nat :=
  (pointsBySuit cards).foldl (fun m p => Nat.max m p.2) 0

/-- One update step of `suitCards`: `suitCards[suit].push({card, value})`,
groups in suit-first-seen order, cards within a group in hand order. -/
def pushGroup (l : List (Suit × List (Card × Nat))) (s : Suit) (cv : Card × Nat) :
    List (Suit × List (Card × Nat)) :=
  match l with
  | [] => [(s, [cv])]
  | (t, g) :: rest => if t = s then (t, g ++ [cv]) :: rest else (t, g) :: pushGroup rest s cv

/-- The `suitCards` grouping of `findWorstCardConsideringSuits`. -/
def suitCardsOf (cards : List Card) : List (Suit × List (Card × Nat)) :=
  cards.foldl (fun acc c => pushGroup acc c.suit (c, getCardValue c)) []

/-- Group read `suitCards[suit]` with `undefined` read as the empty list. -/
def groupLookup (l : List (Suit × List (Card × Nat))) (s : Suit) : List (Card × Nat) :=
  match l with
  | [] => []
  | (t, g) :: rest => if t = s then g else groupLookup rest s

/-- The `strongestSuit` loop of `findWorstCardConsideringSuits`:
`highestPoints` starts at `0` and is beaten only by a strictly greater
total, so the first suit attaining the maximum wins ties. -/
def strongestSuitScan (pts : List (Suit × Nat)) : Option Suit :=
  (pts.foldl (fun (acc : Option Suit × Nat) p =>
    if p.2 > acc.2 then (some p.1, p.2) else acc) (none, 0)).1

/-- One step of the `worstCard` / `lowestValue` scan: `lowestValue` starts
at `Infinity` (the `none` accumulator) and is beaten only by a strictly
smaller value. -/
def scanLowest (acc : Option (Card × Nat)) (cv : Card × Nat) : Option (Card × Nat) :=
  match acc with
  | none => some cv
  | some (w, lo) => if cv.2 < lo then some cv else some (w, lo)

/-- Stable insertion of an element in front of the first stored element of
greater-or-equal value. -/
def insertByValue (cv : Card × Nat) : List (Card × Nat) → List (Card × Nat)
  | [] => [cv]
  | d :: rest => if d.2 < cv.2 then d :: insertByValue cv rest else cv :: d :: rest

/-- The stable ascending sort `arr.sort((a, b) => a.value - b.value)` used
on `suitCards[strongestSuit]`; a stable insertion sort produces the same
list as any stable comparison sort. -/
def sortByValue : List (Card × Nat) → List (Card × Nat)
  | [] => []
  | cv :: rest => insertByValue cv (sortByValue rest)

/-- AI discard choice `GameOrchestrator.findWorstCardConsideringSuits` (the
spec operation `chooseDiscard`): `null` for hands of at most three
cards; otherwise the lowest-value card scanning the non-strongest suit
groups in suit-first-seen order; if all cards are in the strongest suit,
the head of the stable value-sort of that group; with a final scan of the
whole hand when both prior steps produced nothing. -/
def findWorstCardConsideringSuits (cards : List Card) : Option Card :=
  if cards.length ≤ 3 then none
  else
    let groups := suitCardsOf cards
    let strongest := strongestSuitScan (pointsBySuit cards)
    let worst1 : Option (Card × Nat) :=
      groups.foldl (fun acc g =>
        if some g.1 ≠ strongest then g.2.foldl scanLowest acc else acc) none
    let worst2 : Option Card :=
      match worst1 with
      | some cv => some cv.1
      | none =>
        match strongest with
        | some s => ((sortByValue (groupLookup groups s)).head?).map (fun cv => cv.1)
        | none => none
    match worst2 with
    | some w => some w
    | none =>
      (((cards.map (fun c => (c, getCardValue c))).foldl scanLowest none)).map (fun cv => cv.1)

/-- The two draw sources of a turn. -/
inductive DrawSource
  | Deck
  | DiscardPile
deriving DecidableEq, Repr

/-- One step of the key reduce in the draw-source decision:
`(a, b) => pointsBySuit[a] > pointsBySuit[b] ? a : b`. -/
def reduceStep (pts : List (Suit × Nat)) (a b : Suit) : Suit :=
  if assocLookup pts a > assocLookup pts b then a else b

/-- The `strongestSuit` computation of the draw-source decision in
`executePlayer2Turn`: `Object.keys(pointsBySuit).reduce((a, b) =>
pointsBySuit[a] > pointsBySuit[b] ? a : b, keys[0])`. The reduce walks
every key with the first key as initial accumulator and keeps `a` only on
a strictly greater total, so the last suit attaining the maximum wins
ties. -/
def strongestSuitReduce (pts : List (Suit × Nat)) : Option Suit :=
  match pts.map Prod.fst with
  | [] => none
  | k0 :: keys => some ((k0 :: keys).foldl (reduceStep pts) k0)

/-- The draw-source decision of `executePlayer2Turn` (spec operation
`chooseDrawSource`). The examined discard card is
`discardPileContainer.list[0]`, the first element of the container list;
`randGt02` stands for the sampled truth of `Math.random() > 0.2`. The
suit-symbol translation `getSuitNameFromSymbol` is bijective and total on
the four suits, so it is dropped from the embedding. -/
def chooseDrawSource (hand pile : List Card) (randGt02 : Bool) : DrawSource :=
  match pile.head? with
  | none => DrawSource.Deck
  | some topDiscardCard =>
    let v := getCardValue topDiscardCard
    let suitCounts := suitCountsOf hand
    let strongest := strongestSuitReduce (pointsBySuit hand)
    if strongest = some topDiscardCard.suit
        ∨ (10 ≤ v ∧ assocLookup suitCounts topDiscardCard.suit ≠ 0)
        ∨ (v = 11 ∧ randGt02 = true)
    then DrawSource.DiscardPile
    else DrawSource.Deck

/-- Modelled from the spec: the strongest suit as claim C2 words it, the
suit with the highest accumulated value where ties go to the first suit
encountered. -/
def specStrongestFirstTie (pts : List (Suit × Nat)) : Option Suit :=
  (pts.foldl (fun acc p =>
    match acc with
    | none => some p
    | some q => if p.2 > q.2 then some p else some q) none).map Prod.fst

/-- One step of a direct argmax scan over suit/total pairs that prefers
the later pair on ties. -/
def pairStepLast (acc : Option (Suit × Nat)) (p : Suit × Nat) : Option (Suit × Nat) :=
  match acc with
  | none => some p
  | some q => if p.2 ≥ q.2 then some p else some q

/-- The strongest suit with ties to the last suit encountered; used to
state the amended claim C2. -/
def specStrongestLastTie (pts : List (Suit × Nat)) : Option Suit :=
  (pts.foldl pairStepLast none).map Prod.fst

/-- Modelled from the spec (claim C2 wording): examine the top of the
discard pile, the most recently discarded card (the last element of the
container list); prefer the discard pile iff its suit equals the
strongest suit (ties to the first suit encountered), or its value is at
least 10 and the hand holds a card of its suit, or its value is 11 and
the random draw exceeds 0.2; an empty pile always gives the deck. -/
def chooseDrawSourceClaim (hand pile : List Card) (randGt02 : Bool) : DrawSource :=
  match pile.getLast? with
  | none => DrawSource.Deck
  | some top =>
    if specStrongestFirstTie (pointsBySuit hand) = some top.suit
        ∨ (10 ≤ getCardValue top ∧ ∃ c ∈ hand, c.suit = top.suit)
        ∨ (getCardValue top = 11 ∧ randGt02 = true)
    then DrawSource.DiscardPile
    else DrawSource.Deck

/-- Modelled from the spec as amended by claim C2's counterexample:
identical to the claim except that the examined card is the first
element of the discard-pile container list (the oldest remaining
discard) and strongest-suit ties go to the last suit encountered. -/
def chooseDrawSourceAmended (hand pile : List Card) (randGt02 : Bool) : DrawSource :=
  match pile.head? with
  | none => DrawSource.Deck
  | some top =>
    if specStrongestLastTie (pointsBySuit hand) = some top.suit
        ∨ (10 ≤ getCardValue top ∧ ∃ c ∈ hand, c.suit = top.suit)
        ∨ (getCardValue top = 11 ∧ randGt02 = true)
    then DrawSource.DiscardPile
    else DrawSource.Deck

/-- The dealing loop of `DeckManager.dealCards`. The deck is embedded in
depth-descending order (`sortedDeck`), head = top of the deck. The JS
loop runs `cardIndex` from 0 and stops at `cardIndex >= 6`; here the six
iterations are counted down structurally by `fuel` (entered with 6) while
`i` mirrors `cardIndex`, so the function computes by reduction. Cards go
to the container whose parity matches `cardIndex % 2` and are appended at
the container end (`xOffset` grows with the list). A missing index
(fewer than 7 cards, where the JS would tween `undefined`) is mapped to
`none`. -/
def dealCardsAux (sorted : List Card) : Nat → Nat → List Card → List Card →
    Option (List Card × List Card × Card)
  | 0, _, h1, h2 => (sorted.get? 6).map (fun c => (h1, h2, c))
  | fuel + 1, i, h1, h2 =>
    match sorted.get? i with
    | none => none
    | some c =>
      if i % 2 = 0 then dealCardsAux sorted fuel (i + 1) (h1 ++ [c]) h2
      else dealCardsAux sorted fuel (i + 1) h1 (h2 ++ [c])

/-- Initial deal `DeckManager.dealCards`: six cards into the two hands,
the seventh to the discard pile; the undealt cards (index 7 on, still in
depth order) stay in the deck container. -/
def dealCards (sorted : List Card) :
    Option (List Card × List Card × Card × List Card) :=
  (dealCardsAux sorted 6 0 [] []).map (fun r => (r.1, r.2.1, r.2.2, sorted.drop 7))

/-- Modelled from the spec (claim C3 wording): `dealInitial(deck)` removes
the top 3 cards into Hand1, the next 3 into Hand2, the 7th card becomes
the first discard-pile card, and the rest is the remaining deck. -/
def dealInitialClaim (deck : List Card) :
    Option (List Card × List Card × Card × List Card) :=
  match deck with
  | c0 :: c1 :: c2 :: c3 :: c4 :: c5 :: c6 :: rest =>
    some ([c0, c1, c2], [c3, c4, c5], c6, rest)
  | _ => none

/-- A card sprite as the deck container holds it: card data plus the
render depth used to select the top of the deck. -/
structure SpriteCard where
  card : Card
  depth : Nat
deriving DecidableEq, Repr

/-- Top-card selection `deck.reduce((highest, current) => current.depth >
highest.depth ? current : highest, deck[0])`. -/
def topByDepth (l : List SpriteCard) : Option SpriteCard :=
  match l with
  | [] => none
  | d0 :: _ => some (l.foldl (fun hi cur => if cur.depth > hi.depth then cur else hi) d0)

/-- Draw operation `DeckManager.moveTopCardToPlayer`: an empty deck list
returns early, moving nothing and never firing `onComplete`; otherwise
the highest-depth card leaves the deck list, is appended to the player
list, and `onComplete` fires. The `Bool` component records whether
`onComplete` fired; no error value exists anywhere on this path. -/
def moveTopCardToPlayer (deckList handList : List SpriteCard) :
    List SpriteCard × List SpriteCard × Bool :=
  match topByDepth deckList with
  | none => (deckList, handList, false)
  | some top => (deckList.erase top, handList ++ [top], true)

/-- Error type of the spec's deck engine. -/
inductive DrawError
  | EmptyDeckError
deriving DecidableEq, Repr

/-- Modelled from the spec (claim C8 wording): `drawTop(deck)` returns
the drawn card and the remaining deck, and fails with `EmptyDeckError`
when the deck is empty. -/
def drawTopClaim (deckList : List SpriteCard) :
    Except DrawError (SpriteCard × List SpriteCard) :=
  match topByDepth deckList with
  | none => Except.error DrawError.EmptyDeckError
  | some top => Except.ok (top, deckList.erase top)

/-- First card of lowest value in a plain card list, by the same
strict-less scan the source uses (ties to the earlier card). -/
def firstLowestCard (cards : List Card) : Option Card :=
  ((cards.map (fun c => (c, getCardValue c))).foldl scanLowest none).map Prod.fst

/-- Modelled from the spec (claim C4 wording): among cards not in the
strongest suit pick the lowest-value one, ties broken by first occurrence
in hand order; if none exist, the lowest-value card within the strongest
suit; final fallback the lowest-value card of the whole hand. -/
def chooseDiscardClaim (hand : List Card) : Option Card :=
  if hand.length = 4 then
    match strongestSuitScan (pointsBySuit hand) with
    | none => firstLowestCard hand
    | some st =>
      match firstLowestCard (hand.filter (fun c => c.suit ≠ st)) with
      | some w => some w
      | none =>
        match firstLowestCard (hand.filter (fun c => c.suit = st)) with
        | some w => some w
        | none => firstLowestCard hand
  else none

/-- The flag record of `GameManager.gameState`. -/
structure GameState where
  animationComplete : Bool
  cardsInteractable : Bool
  hasDrawnCard : Bool
  hasDiscardedCard : Bool
  mustDiscard : Bool
  knockButtonPressed : Bool
  isAnimating : Bool
  isPlayerTurn : Bool
deriving DecidableEq, Repr

/-- The constructor / `resetFlags` values of `GameManager.gameState`:
everything false, player 1 goes first. -/
def initialGameState : GameState :=
  { animationComplete := false
    cardsInteractable := false
    hasDrawnCard := false
    hasDiscardedCard := false
    mustDiscard := false
    knockButtonPressed := false
    isAnimating := false
    isPlayerTurn := true }

/-- The mutable state of one game session: the flag record, the deck
container list in depth-descending order (head = top), both hand
container lists in container order, and the discard-pile container list
in container order (head = oldest discard, last = highest depth = top). -/
structure Session where
  gs : GameState
  deck : List Card
  hand1 : List Card
  hand2 : List Card
  pile : List Card
deriving DecidableEq, Repr

/-- The two early-return guards of `GameFlowManager.moveCardToPlayer`:
player 1 is rejected when it is not their turn, they already drew,
the knock happened, or an animation runs; player 2 only on knock or
animation. -/
def drawGuardFails (isPlayer1 : Bool) (gs : GameState) : Bool :=
  if isPlayer1 then
    !gs.isPlayerTurn || gs.hasDrawnCard || gs.knockButtonPressed || gs.isAnimating
  else
    gs.knockButtonPressed || gs.isAnimating

/-- Removal of the drawn card from its source container: the deck gives
its top (head of the depth-descending list, the highest-depth sprite);
the discard pile gives its top (the last, highest-depth element of the
container list); an empty source makes the manager return early. -/
def takeTop (source : DrawSource) (s : Session) : Option (Card × Session) :=
  match source with
  | DrawSource.Deck =>
    match s.deck with
    | [] => none
    | c :: rest => some (c, { s with deck := rest })
  | DrawSource.DiscardPile =>
    match s.pile.getLast? with
    | none => none
    | some c => some (c, { s with pile := s.pile.dropLast })

/-- The `onComplete` of `GameFlowManager.moveCardToPlayer`: the card is
appended to the player container, then `hasDrawnCard := true`,
`hasDiscardedCard := false`, `mustDiscard := true`, the animation flag is
reset, and cards become interactable again only when it is player 1's
turn. -/
def giveCardToPlayer (isPlayer1 : Bool) (c : Card) (s : Session) : Session :=
  let s2 := if isPlayer1 then { s with hand1 := s.hand1 ++ [c] }
            else { s with hand2 := s.hand2 ++ [c] }
  { s2 with gs := { s2.gs with
      hasDrawnCard := true
      hasDiscardedCard := false
      mustDiscard := true
      isAnimating := false
      cardsInteractable := if s2.gs.isPlayerTurn then true else s2.gs.cardsInteractable } }

/-- Draw transition `GameFlowManager.moveCardToPlayer`: a failing guard
returns the state untouched; otherwise the animation flags are set, the
source manager moves its top card (an empty source returns early,
leaving the animation flags stuck and `onComplete` unfired), and
`onComplete` applies the draw effects. -/
def moveCardToPlayerFlow (isPlayer1 : Bool) (source : DrawSource) (s : Session) : Session :=
  if drawGuardFails isPlayer1 s.gs then s
  else
    let s1 : Session :=
      { s with gs := { s.gs with isAnimating := true, cardsInteractable := false } }
    match takeTop source s1 with
    | none => s1
    | some (c, s2) => giveCardToPlayer isPlayer1 c s2

/-- The two early-return guards of `GameFlowManager.discardCard`. -/
def discardGuardFails (isPlayer1 : Bool) (gs : GameState) : Bool :=
  if isPlayer1 then
    !gs.isPlayerTurn || !gs.mustDiscard || gs.hasDiscardedCard
      || gs.knockButtonPressed || gs.isAnimating
  else
    gs.knockButtonPressed || gs.isAnimating

/-- Discard transition `GameFlowManager.discardCard`: a failing guard
returns the state untouched; otherwise `discardCardFromPlayer` removes
the card sprite from the player container (removing nothing when it is
absent, as `Container.remove` does) and appends it atop the discard
pile, and the completion callbacks set the discard flags, reset the
animation flag, and re-enable interaction for player 1 or on player 1's
turn. -/
def discardCardFlow (isPlayer1 : Bool) (card : Card) (s : Session) : Session :=
  if discardGuardFails isPlayer1 s.gs then s
  else
    let s2 : Session :=
      if isPlayer1 then { s with hand1 := s.hand1.erase card }
      else { s with hand2 := s.hand2.erase card }
    { s2 with
        pile := s2.pile ++ [card]
        gs := { s2.gs with
          hasDiscardedCard := true
          hasDrawnCard := false
          mustDiscard := false
          isAnimating := false
          cardsInteractable := if isPlayer1 then true
                               else if s2.gs.isPlayerTurn then true else false } }

/-- Pointerdown on the top deck card (`createDeck`): fires only while a
deck sprite exists and `cardsInteractable && !mustDiscard &&
!isAnimating`, then runs `moveTopCardToPlayer1`. -/
def clickDeckTopCard (s : Session) : Session :=
  if s.gs.cardsInteractable && !s.gs.mustDiscard && !s.gs.isAnimating then
    moveCardToPlayerFlow true DrawSource.Deck s
  else s

/-- Pointerdown on the top discard-pile card (`setupDiscardPileCard`):
fires only for the top sprite under `cardsInteractable && !isAnimating
&& !mustDiscard`, then runs `moveTopCardFromDiscardPileToPlayer1`. -/
def clickPileTopCard (s : Session) : Session :=
  if s.gs.cardsInteractable && !s.gs.isAnimating && !s.gs.mustDiscard then
    moveCardToPlayerFlow true DrawSource.DiscardPile s
  else s

/-- Pointerdown on one of player 1's hand cards (`setupPlayerCard`):
the `canDiscard` test requires `cardsInteractable && !isAnimating`,
membership in the player-1 container and `mustDiscard`, then runs
`discardCard`. -/
def clickHandCard (card : Card) (s : Session) : Session :=
  if s.gs.cardsInteractable && !s.gs.isAnimating && s.hand1.contains card
      && s.gs.mustDiscard then
    discardCardFlow true card s
  else s

/-- Flag writes of the end-turn handler in `createEndTurnButton`: the
turn passes to player 2 and the per-turn flags reset. -/
def endTurnFlags (s : Session) : Session :=
  { s with gs := { s.gs with
      isPlayerTurn := false
      hasDrawnCard := false
      hasDiscardedCard := false
      mustDiscard := false
      cardsInteractable := false } }

/-- Draw step of `executePlayer2Turn`: the decision (see
`chooseDrawSource`) picks the source and the guarded flow moves the
card. The code takes the pile branch only under `drawFromDiscard &&
topDiscardCard`, which is exactly when the decision returns the pile. -/
def player2DrawPhase (randGt02 : Bool) (s : Session) : Session :=
  moveCardToPlayerFlow false (chooseDrawSource s.hand2 s.pile randGt02) s

/-- The knock decision of `executePlayer2Turn` after the discard:
`newPoints >= 31 || newPoints >= 27 || (newPoints >= knockThreshold &&
pointDifference > 0) || (newPoints >= 25 && Math.random() > 0.7)` with
`knockThreshold = 20 + Math.floor(Math.random() * 5)` (the `thr` sample,
range 0–4) and `pointDifference = newPoints - estimatedPlayer1Points`
computed on JS numbers, embedded by the integer comparison. `randGt07`
stands for the sampled truth of `Math.random() > 0.7`. -/
def shouldKnockDecision (newPoints estimated : Nat) (thr : Fin 5) (randGt07 : Bool) : Bool :=
  decide (31 ≤ newPoints) || decide (27 ≤ newPoints)
    || (decide (20 + thr.val ≤ newPoints) && decide ((0 : Int) < (newPoints : Int) - (estimated : Int)))
    || (decide (25 ≤ newPoints) && randGt07)

/-- Knock by the AI, `player2Knock`: the knock flag is set and cards
become non-interactable (the sprite-disabling walk is presentation). -/
def player2KnockEffect (s : Session) : Session :=
  { s with gs := { s.gs with knockButtonPressed := true, cardsInteractable := false } }

/-- Hand-back to the human, `startPlayer1Turn`. -/
def startPlayer1TurnEffect (s : Session) : Session :=
  { s with gs := { s.gs with isPlayerTurn := true, cardsInteractable := true } }

/-- Discard-and-knock step of `executePlayer2Turn`: when
`findWorstCardConsideringSuits` returns `null` nothing further happens
at all; otherwise `newPoints` and the estimate of player 1's points are
computed right after `discardCardFromPlayer2` starts its tween — the
discarded card leaves `player2Container.list` only in the tween's
`onComplete`, so `newPoints` is the maximum over the still
four-card hand — the guarded discard then completes, and the knock
decision leads to `player2Knock` or `startPlayer1Turn` in the later
`delayedCall`. -/
def player2DiscardPhase (thr : Fin 5) (randGt07 : Bool) (s : Session) : Session :=
  match findWorstCardConsideringSuits s.hand2 with
  | none => s
  | some worst =>
    let newPoints := maxPoints s.hand2
    let estimated := maxPoints s.hand1
    let s1 := discardCardFlow false worst s
    if shouldKnockDecision newPoints estimated thr randGt07 then
      player2KnockEffect s1
    else
      startPlayer1TurnEffect s1

/-- The full AI turn `executePlayer2Turn`, run synchronously (the
`delayedCall` pacing is presentation). -/
def executePlayer2Turn (randGt02 : Bool) (thr : Fin 5) (randGt07 : Bool) (s : Session) : Session :=
  player2DiscardPhase thr randGt07 (player2DrawPhase randGt02 s)

/-- Pointerdown on the end-turn button. The button is interactive only
when `updateEndTurnButton` last saw `!knockButtonPressed`,
`isPlayerTurn` and a 3-card hand, and the handler re-checks the hand
size (its captured `isPlayerTurn` argument is the creation-time value
`true`); at every rest point those update-time reads coincide with the
current state. The handler's flag writes are followed by the AI turn. -/
def clickEndTurn (randGt02 : Bool) (thr : Fin 5) (randGt07 : Bool) (s : Session) : Session :=
  if !s.gs.knockButtonPressed && s.gs.isPlayerTurn && s.hand1.length == 3 then
    executePlayer2Turn randGt02 thr randGt07 (endTurnFlags s)
  else s

/-- Pointerdown on the knock button (`createKnockButton`): rejected
unless `animationComplete`, at most 3 cards in hand and no knock yet
(the handler's `isPlayerTurn` argument is the creation-time value
`true`, so that test is vacuous); then the knock flag is set and cards
become non-interactable. -/
def clickKnock (s : Session) : Session :=
  if s.gs.animationComplete && !(3 < s.hand1.length : Bool) && !s.gs.knockButtonPressed then
    { s with gs := { s.gs with knockButtonPressed := true, cardsInteractable := false } }
  else s

/-- The 52-card deck built by `DeckManager.createDeck` before the
shuffle: suits in `suits` order, ranks in `ranks` order. -/
def buildDeck : List Card :=
  [Suit.Clubs, Suit.Diamonds, Suit.Hearts, Suit.Spades].flatMap (fun s =>
    [Rank.r2, Rank.r3, Rank.r4, Rank.r5, Rank.r6, Rank.r7, Rank.r8, Rank.r9,
     Rank.r10, Rank.J, Rank.Q, Rank.K, Rank.A].map (fun r => { suit := s, rank := r }))

/-- The session state at the first rest point after dealing: the deal
distributed the cards, `animationComplete` was set by the deal callback,
and the delayed calls of `initializeGame` / `dealCards` set
`cardsInteractable := true` and `mustDiscard := false` with the
animation flag reset. -/
def sessionAfterDeal (deck : List Card) : Option Session :=
  (dealCards deck).map (fun r =>
    { gs := { initialGameState with animationComplete := true, cardsInteractable := true }
      deck := r.2.2.2
      hand1 := r.1
      hand2 := r.2.1
      pile := [r.2.2.1] })

/-- The reachable session states: a session starts at the rest point
after dealing a shuffled 52-card deck and evolves by the recorded UI and
AI transitions. Deck and pile clicks need a sprite to click, hence the
nonemptiness premises; the sort buttons rearrange player 1's container
to a permutation; restart rebuilds and re-deals wholesale. -/
inductive Reachable : Session → Prop
  | init {deck : List Card} {s : Session} :
      deck.Perm buildDeck → sessionAfterDeal deck = some s → Reachable s
  | deckClick {s : Session} : Reachable s → s.deck ≠ [] → Reachable (clickDeckTopCard s)
  | pileClick {s : Session} : Reachable s → s.pile ≠ [] → Reachable (clickPileTopCard s)
  | handClick {s : Session} (card : Card) : Reachable s → Reachable (clickHandCard card s)
  | endTurn {s : Session} (randGt02 : Bool) (thr : Fin 5) (randGt07 : Bool) :
      Reachable s → Reachable (clickEndTurn randGt02 thr randGt07 s)
  | knockClick {s : Session} : Reachable s → Reachable (clickKnock s)
  | sortHand1 {s : Session} {l : List Card} :
      Reachable s → s.hand1.Perm l → Reachable { s with hand1 := l }
  | restartClick {s : Session} {deck : List Card} {t : Session} :
      Reachable s → deck.Perm buildDeck → sessionAfterDeal deck = some t → Reachable t

/-- The non-strongest-suit discard candidates in the traversal order of
`findWorstCardConsideringSuits`: suit groups in suit-first-seen order
with the strongest suit's group skipped, cards within a group in hand
order. -/
def nonStrongestCands (hand : List Card) : List (Card × Nat) :=
  (((suitCardsOf hand).filter
    (fun g => decide (some g.1 ≠ strongestSuitScan (pointsBySuit hand)))).map Prod.snd).flatten

/-- The strongest suit's card group of a hand, in hand order. -/
def strongGroupOf (hand : List Card) : List (Card × Nat) :=
  match strongestSuitScan (pointsBySuit hand) with
  | some st => groupLookup (suitCardsOf hand) st
  | none => []

/-- The session invariant established by the deal and preserved by every
recorded transition: hand sizes stay in {3, 4}; the single shared
`mustDiscard` flag is set exactly while one of the hands holds 4 cards;
the 4-card hand, when it exists, belongs to the turn holder (so never
both); and the animation flag can be stuck high only during the
opponent's turn. -/
def SessionInv (s : Session) : Prop :=
  (s.hand1.length = 3 ∨ s.hand1.length = 4) ∧
  (s.hand2.length = 3 ∨ s.hand2.length = 4) ∧
  (s.gs.mustDiscard = true ↔ (s.hand1.length = 4 ∨ s.hand2.length = 4)) ∧
  (s.hand1.length = 4 → s.gs.isPlayerTurn = true) ∧
  (s.hand2.length = 4 → s.gs.isPlayerTurn = false) ∧
  (s.gs.isAnimating = true → s.gs.isPlayerTurn = false)

/-- The four-card opponent hand of the spec's worked AI-discard example:
2♠, 9♠, 7♥, A♥ in hand order. -/
def exC1hand : List Card :=
  [{ suit := Suit.Spades, rank := Rank.r2 }, { suit := Suit.Spades, rank := Rank.r9 },
   { suit := Suit.Hearts, rank := Rank.r7 }, { suit := Suit.Hearts, rank := Rank.A }]

/-- A four-card hand with a cross-suit value tie whose first-in-hand tied
card sits in a later-encountered suit group: 5♥, 3♦, A♠, 3♥. -/
def exC4hand : List Card :=
  [{ suit := Suit.Hearts, rank := Rank.r5 }, { suit := Suit.Diamonds, rank := Rank.r3 },
   { suit := Suit.Spades, rank := Rank.A }, { suit := Suit.Hearts, rank := Rank.r3 }]

/-- A mono-suit three-card opponent hand: 2♠, 3♠, 4♠. -/
def exC2hand : List Card :=
  [{ suit := Suit.Spades, rank := Rank.r2 }, { suit := Suit.Spades, rank := Rank.r3 },
   { suit := Suit.Spades, rank := Rank.r4 }]

/-- A two-card discard pile, oldest first: 2♥ at the bottom, 5♠ on top
(most recently discarded). -/
def exC2pile : List Card :=
  [{ suit := Suit.Hearts, rank := Rank.r2 }, { suit := Suit.Spades, rank := Rank.r5 }]

/-- A seven-card deck prefix of pairwise distinct cards, top first. -/
def exC3deck : List Card :=
  [{ suit := Suit.Clubs, rank := Rank.r2 }, { suit := Suit.Clubs, rank := Rank.r3 },
   { suit := Suit.Clubs, rank := Rank.r4 }, { suit := Suit.Clubs, rank := Rank.r5 },
   { suit := Suit.Clubs, rank := Rank.r6 }, { suit := Suit.Clubs, rank := Rank.r7 },
   { suit := Suit.Clubs, rank := Rank.r8 }]

/-- A two-sprite deck whose top (highest-depth) card is the second one. -/
def exC8deck : List SpriteCard :=
  [{ card := { suit := Suit.Clubs, rank := Rank.r2 }, depth := 5 },
   { card := { suit := Suit.Clubs, rank := Rank.r3 }, depth := 9 }]

/-- A filler session used only as the `Option.getD` fallback below. -/
def fallbackSession : Session :=
  { gs := initialGameState, deck := [], hand1 := [], hand2 := [], pile := [] }

/-- The concrete post-deal session of the identity shuffle of
`buildDeck`; used to witness reachability facts. -/
def demoSession : Session := (sessionAfterDeal buildDeck).getD fallbackSession

/-- The demo session after player 1 draws the top deck card. -/
def demoDrawnSession : Session := clickDeckTopCard demoSession

/-- A session whose knock flag is already set; used to witness guard
rejections and knock monotonicity. -/
def knockedSession : Session :=
  { gs := { initialGameState with knockButtonPressed := true }
    deck := [{ suit := Suit.Clubs, rank := Rank.r2 }]
    hand1 := exC2hand
    hand2 := exC2hand
    pile := exC2pile }

/-- A mid-game rest state whose deck and discard pile have run empty:
the scenario claim C10 itself hypothesizes for the opponent's silent
draw ("the preceding draw silently did nothing on an empty deck"). -/
def emptyDeckSession : Session :=
  { gs := { initialGameState with animationComplete := true, cardsInteractable := true }
    deck := []
    hand1 := exC2hand
    hand2 := [{ suit := Suit.Hearts, rank := Rank.r2 }, { suit := Suit.Hearts, rank := Rank.r3 },
              { suit := Suit.Hearts, rank := Rank.r4 }]
    pile := [] }

/-- The stalled session: the human ends the turn on `emptyDeckSession`,
the opponent's draw finds both sources empty and silently does nothing
(leaving the animation flags stuck), and the discard step then sees a
three-card hand. -/
def stalledSession : Session :=
  executePlayer2Turn false 0 false (endTurnFlags emptyDeckSession)

/-! Helper lemmas about the embedded folds. -/

lemma getCardValue_pos (c : Card) : 0 < getCardValue c := by
  cases h : c.rank <;> simp [getCardValue, rankOrder, h]

lemma scanLowest_some (m cv : Card × Nat) :
    scanLowest (some m) cv = if cv.2 < m.2 then some cv else some m := by
  obtain ⟨w, lo⟩ := m
  rfl

/-- The strict-less scan started at `some m` returns the first element of
`m :: l` attaining the minimum value. -/
lemma scanLowest_fold (l : List (Card × Nat)) (m : Card × Nat) :
    ∃ pre post mfin, l.foldl scanLowest (some m) = some mfin ∧
      mfin.2 ≤ m.2 ∧
      m :: l = pre ++ mfin :: post ∧
      (∀ p ∈ pre, mfin.2 < p.2) ∧ (∀ p ∈ post, mfin.2 ≤ p.2) := by
  induction l generalizing m with
  | nil => exact ⟨[], [], m, rfl, le_refl _, rfl, by simp, by simp⟩
  | cons cv rest ih =>
    rw [List.foldl_cons, scanLowest_some]
    by_cases h : cv.2 < m.2
    · rw [if_pos h]
      obtain ⟨pre, post, mfin, hfold, hle, hdec, hpre, hpost⟩ := ih cv
      refine ⟨m :: pre, post, mfin, hfold, le_of_lt (lt_of_le_of_lt hle h), ?_, ?_, hpost⟩
      · rw [List.cons_append, hdec]
      · intro p hp
        rcases List.mem_cons.mp hp with hpm | hpp
        · subst hpm
          exact lt_of_le_of_lt hle h
        · exact hpre p hpp
    · rw [if_neg h]
      obtain ⟨pre, post, mfin, hfold, hle, hdec, hpre, hpost⟩ := ih m
      cases pre with
      | nil =>
        simp only [List.nil_append, List.cons.injEq] at hdec
        refine ⟨[], cv :: post, mfin, hfold, hle, ?_, by simp, ?_⟩
        · rw [List.nil_append, hdec.1, hdec.2]
        · intro p hp
          rcases List.mem_cons.mp hp with hpc | hpp
          · subst hpc
            exact le_trans (hdec.1 ▸ hle) (Nat.le_of_not_lt h)
          · exact hpost p hpp
      | cons q pre2 =>
        simp only [List.cons_append, List.cons.injEq] at hdec
        refine ⟨m :: cv :: pre2, post, mfin, hfold, hle, ?_, ?_, hpost⟩
        · rw [List.cons_append, List.cons_append, hdec.2]
        · intro p hp
          rcases List.mem_cons.mp hp with hpm | hp2
          · subst hpm
            exact hdec.1 ▸ hpre q (List.mem_cons_self q pre2)
          · rcases List.mem_cons.mp hp2 with hpc | hpp
            · subst hpc
              exact lt_of_lt_of_le (hdec.1 ▸ hpre q (List.mem_cons_self q pre2))
                (Nat.le_of_not_lt h)
            · exact hpre p (List.mem_cons_of_mem q hpp)

lemma insertByValue_perm (cv : Card × Nat) (l : List (Card × Nat)) :
    (insertByValue cv l).Perm (cv :: l) := by
  induction l with
  | nil => exact List.Perm.refl _
  | cons d rest ih =>
    rw [insertByValue]
    by_cases h : d.2 < cv.2
    · rw [if_pos h]
      exact (ih.cons d).trans (List.Perm.swap cv d rest)
    · rw [if_neg h]

lemma sortByValue_perm (l : List (Card × Nat)) : (sortByValue l).Perm l := by
  induction l with
  | nil => exact List.Perm.refl _
  | cons cv rest ih =>
    exact (insertByValue_perm cv (sortByValue rest)).trans (ih.cons cv)

/-- The head of the stable value-sort is the first element of the list
attaining the minimum value. -/
lemma sortByValue_head (g : List (Card × Nat)) (hg : g ≠ []) :
    ∃ pre post mfin, (sortByValue g).head? = some mfin ∧
      g = pre ++ mfin :: post ∧
      (∀ p ∈ pre, mfin.2 < p.2) ∧ (∀ p ∈ post, mfin.2 ≤ p.2) := by
  induction g with
  | nil => exact absurd rfl hg
  | cons cv rest ih =>
    cases rest with
    | nil => exact ⟨[], [], cv, rfl, rfl, by simp, by simp⟩
    | cons d2 rest2 =>
      obtain ⟨pre, post, mfin, hhead, hdec, hpre, hpost⟩ := ih (by simp)
      have hmin : ∀ p ∈ d2 :: rest2, mfin.2 ≤ p.2 := by
        intro p hp
        rw [hdec] at hp
        rcases List.mem_append.mp hp with hp1 | hp2
        · exact le_of_lt (hpre p hp1)
        · rcases List.mem_cons.mp hp2 with hp3 | hp4
          · exact hp3 ▸ le_refl _
          · exact hpost p hp4
      obtain ⟨tl, htl⟩ : ∃ tl, sortByValue (d2 :: rest2) = mfin :: tl := by
        cases hs : sortByValue (d2 :: rest2) with
        | nil => rw [hs] at hhead; cases hhead
        | cons a tl =>
          rw [hs] at hhead
          rw [List.head?_cons, Option.some.injEq] at hhead
          exact ⟨tl, by rw [hhead]⟩
      by_cases h : mfin.2 < cv.2
      · refine ⟨cv :: pre, post, mfin, ?_, ?_, ?_, hpost⟩
        · rw [sortByValue, htl, insertByValue, if_pos h, List.head?_cons]
        · rw [List.cons_append, hdec]
        · intro p hp
          rcases List.mem_cons.mp hp with hpc | hpp
          · exact hpc ▸ h
          · exact hpre p hpp
      · refine ⟨[], d2 :: rest2, cv, ?_, by simp, by simp, ?_⟩
        · rw [sortByValue, htl, insertByValue, if_neg h, List.head?_cons]
        · intro p hp
          exact le_trans (Nat.le_of_not_lt h) (hmin p hp)

lemma strongestScan_aux_some (pts : List (Suit × Nat)) :
    ∀ (a : Suit) (v : Nat), ∃ b w,
      pts.foldl (fun (acc : Option Suit × Nat) p =>
        if p.2 > acc.2 then (some p.1, p.2) else acc) (some a, v) = (some b, w) := by
  induction pts with
  | nil => exact fun a v => ⟨a, v, rfl⟩
  | cons p rest ih =>
    intro a v
    rw [List.foldl_cons]
    by_cases h : p.2 > v
    · simpa [if_pos h] using ih p.1 p.2
    · simpa [if_neg h] using ih a v

lemma strongestSuitScan_isSome (pts : List (Suit × Nat)) (h : ∃ p ∈ pts, 0 < p.2) :
    ∃ s, strongestSuitScan pts = some s := by
  induction pts with
  | nil => simp at h
  | cons p rest ih =>
    rw [strongestSuitScan, List.foldl_cons]
    by_cases h0 : p.2 > (0 : Nat)
    · rw [if_pos h0]
      obtain ⟨b, w, hb⟩ := strongestScan_aux_some rest p.1 p.2
      exact ⟨b, by rw [hb]⟩
    · rw [if_neg h0]
      obtain ⟨q, hq, hqpos⟩ := h
      rcases List.mem_cons.mp hq with hqp | hqr
      · exact absurd (hqp ▸ hqpos) h0
      · exact ih ⟨q, hqr, hqpos⟩

lemma bumpAssoc_ne_nil (l : List (Suit × Nat)) (s : Suit) (v : Nat) :
    bumpAssoc l s v ≠ [] := by
  cases l with
  | nil => simp [bumpAssoc]
  | cons p rest =>
    obtain ⟨t, w⟩ := p
    by_cases h : t = s <;> simp [bumpAssoc, h]

lemma foldl_bump_ne_nil (f : Card → Nat) :
    ∀ (cards : List Card) (acc : List (Suit × Nat)), acc ≠ [] →
      cards.foldl (fun a c => bumpAssoc a c.suit (f c)) acc ≠ [] := by
  intro cards
  induction cards with
  | nil => exact fun acc h => h
  | cons c rest ih =>
    intro acc _
    rw [List.foldl_cons]
    exact ih _ (bumpAssoc_ne_nil acc c.suit (f c))

lemma pointsBySuit_ne_nil (cards : List Card) (h : cards ≠ []) :
    pointsBySuit cards ≠ [] := by
  cases cards with
  | nil => exact absurd rfl h
  | cons c rest =>
    rw [pointsBySuit, List.foldl_cons]
    exact foldl_bump_ne_nil getCardValue rest _ (bumpAssoc_ne_nil [] c.suit (getCardValue c))

lemma bumpAssoc_pos (l : List (Suit × Nat)) (s : Suit) (v : Nat)
    (hl : ∀ p ∈ l, 0 < p.2) (hv : 0 < v) : ∀ p ∈ bumpAssoc l s v, 0 < p.2 := by
  induction l with
  | nil => simpa [bumpAssoc] using hv
  | cons q rest ih =>
    obtain ⟨t, w⟩ := q
    by_cases h : t = s
    · simp only [bumpAssoc, if_pos h]
      intro p hp
      rcases List.mem_cons.mp hp with hp1 | hp2
      · subst hp1
        have := hl (t, w) (List.mem_cons_self _ _)
        simp only at this ⊢
        omega
      · exact hl p (List.mem_cons_of_mem _ hp2)
    · simp only [bumpAssoc, if_neg h]
      intro p hp
      rcases List.mem_cons.mp hp with hp1 | hp2
      · exact hp1 ▸ hl (t, w) (List.mem_cons_self _ _)
      · exact ih (fun q hq => hl q (List.mem_cons_of_mem _ hq)) p hp2

lemma pointsBySuit_pos (cards : List Card) : ∀ p ∈ pointsBySuit cards, 0 < p.2 := by
  have aux : ∀ (l : List Card) (acc : List (Suit × Nat)), (∀ p ∈ acc, 0 < p.2) →
      ∀ p ∈ l.foldl (fun a c => bumpAssoc a c.suit (getCardValue c)) acc, 0 < p.2 := by
    intro l
    induction l with
    | nil => exact fun acc h => h
    | cons c rest ih =>
      intro acc hacc
      rw [List.foldl_cons]
      exact ih _ (bumpAssoc_pos acc c.suit (getCardValue c) hacc (getCardValue_pos c))
  exact aux cards [] (by simp)

lemma strongestSuitScan_points_isSome (cards : List Card) (h : cards ≠ []) :
    ∃ s, strongestSuitScan (pointsBySuit cards) = some s := by
  obtain ⟨p, rest, hp⟩ := List.exists_cons_of_ne_nil (pointsBySuit_ne_nil cards h)
  refine strongestSuitScan_isSome _ ⟨p, hp ▸ List.mem_cons_self _ _, ?_⟩
  exact pointsBySuit_pos cards p (hp ▸ List.mem_cons_self _ _)

lemma pushGroup_ne_nil (l : List (Suit × List (Card × Nat))) (s : Suit) (cv : Card × Nat) :
    pushGroup l s cv ≠ [] := by
  cases l with
  | nil => simp [pushGroup]
  | cons g rest =>
    obtain ⟨t, gl⟩ := g
    by_cases h : t = s <;> simp [pushGroup, h]

lemma pushGroup_groups_ne_nil (l : List (Suit × List (Card × Nat))) (s : Suit)
    (cv : Card × Nat) (h : ∀ g ∈ l, g.2 ≠ []) : ∀ g ∈ pushGroup l s cv, g.2 ≠ [] := by
  induction l with
  | nil =>
    intro g hg
    simp only [pushGroup, List.mem_singleton] at hg
    subst hg
    simp
  | cons q rest ih =>
    obtain ⟨t, gl⟩ := q
    by_cases ht : t = s
    · simp only [pushGroup, if_pos ht]
      intro g hg
      rcases List.mem_cons.mp hg with hg1 | hg2
      · subst hg1
        simp
      · exact h g (List.mem_cons_of_mem _ hg2)
    · simp only [pushGroup, if_neg ht]
      intro g hg
      rcases List.mem_cons.mp hg with hg1 | hg2
      · exact hg1 ▸ h (t, gl) (List.mem_cons_self _ _)
      · exact ih (fun q hq => h q (List.mem_cons_of_mem _ hq)) g hg2

lemma pushGroup_pairs {Q : Card × Nat → Prop} (l : List (Suit × List (Card × Nat)))
    (s : Suit) (cv : Card × Nat) (hl : ∀ g ∈ l, ∀ p ∈ g.2, Q p) (hcv : Q cv) :
    ∀ g ∈ pushGroup l s cv, ∀ p ∈ g.2, Q p := by
  induction l with
  | nil =>
    intro g hg p hp
    simp only [pushGroup, List.mem_singleton] at hg
    subst hg
    simp only [List.mem_singleton] at hp
    exact hp ▸ hcv
  | cons q rest ih =>
    obtain ⟨t, gl⟩ := q
    by_cases ht : t = s
    · simp only [pushGroup, if_pos ht]
      intro g hg p hp
      rcases List.mem_cons.mp hg with hg1 | hg2
      · subst hg1
        simp only [List.mem_append, List.mem_singleton] at hp
        rcases hp with hp1 | hp2
        · exact hl (t, gl) (List.mem_cons_self _ _) p hp1
        · exact hp2 ▸ hcv
      · exact hl g (List.mem_cons_of_mem _ hg2) p hp
    · simp only [pushGroup, if_neg ht]
      intro g hg p hp
      rcases List.mem_cons.mp hg with hg1 | hg2
      · exact hl g (hg1 ▸ List.mem_cons_self _ _) p hp
      · exact ih (fun q hq => hl q (List.mem_cons_of_mem _ hq)) g hg2 p hp

lemma suitCardsOf_groups_ne_nil (cards : List Card) :
    ∀ g ∈ suitCardsOf cards, g.2 ≠ [] := by
  have aux : ∀ (l : List Card) (acc : List (Suit × List (Card × Nat))),
      (∀ g ∈ acc, g.2 ≠ []) →
      ∀ g ∈ l.foldl (fun a c => pushGroup a c.suit (c, getCardValue c)) acc, g.2 ≠ [] := by
    intro l
    induction l with
    | nil => exact fun acc h => h
    | cons c rest ih =>
      intro acc hacc
      rw [List.foldl_cons]
      exact ih _ (pushGroup_groups_ne_nil acc c.suit (c, getCardValue c) hacc)
  exact aux cards [] (by simp)

lemma suitCardsOf_pairs (cards : List Card) :
    ∀ g ∈ suitCardsOf cards, ∀ p ∈ g.2, p.1 ∈ cards ∧ p.2 = getCardValue p.1 := by
  have aux : ∀ (l : List Card) (acc : List (Suit × List (Card × Nat))),
      (∀ c ∈ l, c ∈ cards) →
      (∀ g ∈ acc, ∀ p ∈ g.2, p.1 ∈ cards ∧ p.2 = getCardValue p.1) →
      ∀ g ∈ l.foldl (fun a c => pushGroup a c.suit (c, getCardValue c)) acc,
        ∀ p ∈ g.2, p.1 ∈ cards ∧ p.2 = getCardValue p.1 := by
    intro l
    induction l with
    | nil => exact fun acc _ h => h
    | cons c rest ih =>
      intro acc hsub hacc
      rw [List.foldl_cons]
      refine ih _ (fun d hd => hsub d (List.mem_cons_of_mem _ hd)) ?_
      exact pushGroup_pairs acc c.suit (c, getCardValue c) hacc
        ⟨hsub c (List.mem_cons_self _ _), rfl⟩
  exact aux cards [] (fun c hc => hc) (by simp)

lemma suitCardsOf_ne_nil (cards : List Card) (h : cards ≠ []) :
    suitCardsOf cards ≠ [] := by
  have aux : ∀ (l : List Card) (acc : List (Suit × List (Card × Nat))), acc ≠ [] →
      l.foldl (fun a c => pushGroup a c.suit (c, getCardValue c)) acc ≠ [] := by
    intro l
    induction l with
    | nil => exact fun acc h => h
    | cons c rest ih =>
      intro acc _
      rw [List.foldl_cons]
      exact ih _ (pushGroup_ne_nil acc c.suit (c, getCardValue c))
  cases cards with
  | nil => exact absurd rfl h
  | cons c rest =>
    rw [suitCardsOf, List.foldl_cons]
    exact aux rest _ (pushGroup_ne_nil [] c.suit (c, getCardValue c))

lemma groupLookup_of_exists (l : List (Suit × List (Card × Nat))) (s : Suit)
    (h : ∃ g ∈ l, g.1 = s) : ∃ g ∈ l, g.1 = s ∧ groupLookup l s = g.2 := by
  induction l with
  | nil => simp at h
  | cons q rest ih =>
    obtain ⟨t, gl⟩ := q
    by_cases ht : t = s
    · exact ⟨(t, gl), List.mem_cons_self _ _, ht, by rw [groupLookup, if_pos ht]⟩
    · obtain ⟨g, hg, hgs⟩ := h
      rcases List.mem_cons.mp hg with hg1 | hg2
      · exact absurd (by rw [hg1] at hgs; exact hgs) ht
      · obtain ⟨g2, hg2m, hg2s, hg2l⟩ := ih ⟨g, hg2, hgs⟩
        exact ⟨g2, List.mem_cons_of_mem _ hg2m, hg2s, by rw [groupLookup, if_neg ht]; exact hg2l⟩

lemma worstScan_eq_join (strongest : Option Suit) :
    ∀ (groups : List (Suit × List (Card × Nat))) (acc : Option (Card × Nat)),
      groups.foldl (fun acc g => if some g.1 ≠ strongest then g.2.foldl scanLowest acc else acc) acc
        = (((groups.filter (fun g => decide (some g.1 ≠ strongest))).map Prod.snd).flatten).foldl
            scanLowest acc := by
  intro groups
  induction groups with
  | nil => intro acc; rfl
  | cons g rest ih =>
    intro acc
    by_cases h : some g.1 ≠ strongest
    · rw [List.foldl_cons, if_pos h, List.filter_cons_of_pos (by simpa using h),
        List.map_cons, List.flatten_cons, List.foldl_append, ih]
    · rw [List.foldl_cons, if_neg h, List.filter_cons_of_neg (by simpa using h), ih]

lemma nonStrongestCands_mem (hand : List Card) (p : Card × Nat)
    (hp : p ∈ nonStrongestCands hand) : p.1 ∈ hand ∧ p.2 = getCardValue p.1 := by
  rw [nonStrongestCands, List.mem_flatten] at hp
  obtain ⟨l, hl, hpl⟩ := hp
  rw [List.mem_map] at hl
  obtain ⟨g, hg, hgl⟩ := hl
  have hgmem : g ∈ suitCardsOf hand := (List.mem_filter.mp hg).1
  exact suitCardsOf_pairs hand g hgmem p (hgl ▸ hpl)

/-- Characterization of the AI discard at 4-card hands: the result is
the value-minimal candidate that comes first in the traversal order —
the non-strongest groups flattened in suit-first-seen order when any
non-strongest card exists, the strongest group in hand order otherwise. -/
lemma findWorst_char (hand : List Card) (h4 : hand.length = 4) :
    ∃ (mfin : Card × Nat) (pre post : List (Card × Nat)),
      findWorstCardConsideringSuits hand = some mfin.1 ∧
      mfin.1 ∈ hand ∧ mfin.2 = getCardValue mfin.1 ∧
      (if nonStrongestCands hand = [] then strongGroupOf hand else nonStrongestCands hand)
        = pre ++ mfin :: post ∧
      (∀ p ∈ pre, mfin.2 < p.2) ∧ (∀ p ∈ post, mfin.2 ≤ p.2) := by
  have hne : hand ≠ [] := by
    intro h
    rw [h] at h4
    simp at h4
  have hlen : ¬ hand.length ≤ 3 := by omega
  have hcands : (((suitCardsOf hand).filter
      (fun g => decide (some g.1 ≠ strongestSuitScan (pointsBySuit hand)))).map
      Prod.snd).flatten = nonStrongestCands hand := rfl
  cases hc : nonStrongestCands hand with
  | cons c cr =>
    obtain ⟨pre, post, mfin, hfold, hle, hdec, hpre, hpost⟩ := scanLowest_fold cr c
    have hworst1 : (suitCardsOf hand).foldl
        (fun acc g => if some g.1 ≠ strongestSuitScan (pointsBySuit hand) then
          g.2.foldl scanLowest acc else acc) none = some mfin := by
      rw [worstScan_eq_join, hcands, hc, List.foldl_cons]
      exact hfold
    have hmem : mfin ∈ nonStrongestCands hand := by
      rw [hc, hdec]
      exact List.mem_append_right _ (List.mem_cons_self _ _)
    obtain ⟨hmem1, hmem2⟩ := nonStrongestCands_mem hand mfin hmem
    refine ⟨mfin, pre, post, ?_, hmem1, hmem2, ?_, hpre, hpost⟩
    · simp only [findWorstCardConsideringSuits, if_neg hlen, hworst1]
    · rw [if_neg (List.cons_ne_nil c cr)]
      exact hdec
  | nil =>
    have hworst1 : (suitCardsOf hand).foldl
        (fun acc g => if some g.1 ≠ strongestSuitScan (pointsBySuit hand) then
          g.2.foldl scanLowest acc else acc) none = none := by
      rw [worstScan_eq_join, hcands, hc]
      rfl
    obtain ⟨st, hst⟩ := strongestSuitScan_points_isSome hand hne
    have hfilter : (suitCardsOf hand).filter
        (fun g => decide (some g.1 ≠ strongestSuitScan (pointsBySuit hand))) = [] := by
      have h1 : (((suitCardsOf hand).filter
          (fun g => decide (some g.1 ≠ strongestSuitScan (pointsBySuit hand)))).map
          Prod.snd).flatten = [] := by rw [hcands]; exact hc
      rw [List.flatten_eq_nil_iff] at h1
      by_contra hne2
      obtain ⟨g, tail, hg⟩ := List.exists_cons_of_ne_nil hne2
      have hgmem : g ∈ (suitCardsOf hand).filter
          (fun g => decide (some g.1 ≠ strongestSuitScan (pointsBySuit hand))) :=
        hg ▸ List.mem_cons_self _ _
      have hgnil : g.2 = [] := h1 g.2 (List.mem_map_of_mem _ hgmem)
      exact suitCardsOf_groups_ne_nil hand g (List.mem_filter.mp hgmem).1 hgnil
    have hallstrong : ∀ g ∈ suitCardsOf hand,
        some g.1 = strongestSuitScan (pointsBySuit hand) := by
      intro g hg
      have := List.filter_eq_nil_iff.mp hfilter g hg
      simpa using this
    obtain ⟨g0, grest, hg0⟩ := List.exists_cons_of_ne_nil (suitCardsOf_ne_nil hand hne)
    have hg0s : g0.1 = st := by
      have h2 := hallstrong g0 (hg0 ▸ List.mem_cons_self _ _)
      rw [hst] at h2
      exact Option.some.inj h2
    obtain ⟨g, hgmem, hgs, hglookup⟩ :=
      groupLookup_of_exists (suitCardsOf hand) st ⟨g0, hg0 ▸ List.mem_cons_self _ _, hg0s⟩
    have hgne : g.2 ≠ [] := suitCardsOf_groups_ne_nil hand g hgmem
    obtain ⟨pre, post, mfin, hhead, hdec, hpre, hpost⟩ := sortByValue_head g.2 hgne
    have hmemg : mfin ∈ g.2 := by
      rw [hdec]
      exact List.mem_append_right _ (List.mem_cons_self _ _)
    obtain ⟨hmem1, hmem2⟩ := suitCardsOf_pairs hand g hgmem mfin hmemg
    refine ⟨mfin, pre, post, ?_, hmem1, hmem2, ?_, hpre, hpost⟩
    · simp only [findWorstCardConsideringSuits, if_neg hlen]
      rw [hworst1]
      simp only [hst, hglookup, hhead]
      rfl
    · rw [if_pos (rfl : ([] : List (Card × Nat)) = [])]
      rw [strongGroupOf]
      simp only [hst]
      rw [hglookup]
      exact hdec

lemma findWorst_isSome4 (hand : List Card) (h4 : hand.length = 4) :
    ∃ w, findWorstCardConsideringSuits hand = some w := by
  obtain ⟨mfin, _, _, hF, _⟩ := findWorst_char hand h4
  exact ⟨mfin.1, hF⟩

lemma findWorst_mem4 (hand : List Card) (w : Card) (h4 : hand.length = 4)
    (hw : findWorstCardConsideringSuits hand = some w) : w ∈ hand := by
  obtain ⟨mfin, _, _, hF, hmem, _⟩ := findWorst_char hand h4
  rw [hF] at hw
  exact (Option.some.inj hw) ▸ hmem

lemma assocLookup_bumpAssoc (l : List (Suit × Nat)) (t : Suit) (v : Nat) (s : Suit) :
    assocLookup (bumpAssoc l t v) s = assocLookup l s + (if t = s then v else 0) := by
  induction l with
  | nil =>
    by_cases h : t = s
    · simp [bumpAssoc, assocLookup, h]
    · simp [bumpAssoc, assocLookup, h]
  | cons q rest ih =>
    obtain ⟨u, w⟩ := q
    by_cases hu : u = t
    · subst hu
      by_cases hs : u = s
      · subst hs
        simp [bumpAssoc, assocLookup]
      · simp [bumpAssoc, assocLookup, hs]
    · by_cases hs : u = s
      · subst hs
        have ht : ¬ t = u := fun h => hu h.symm
        simp [bumpAssoc, assocLookup, hu, ht]
      · simp [bumpAssoc, assocLookup, hu, hs, ih]

/-- The suit-count object of the draw decision counts exactly the hand
cards of a suit. -/
lemma suitCountsOf_lookup (hand : List Card) (su : Suit) :
    assocLookup (suitCountsOf hand) su = hand.countP (fun c => decide (c.suit = su)) := by
  have aux : ∀ (l : List Card) (acc : List (Suit × Nat)),
      assocLookup (l.foldl (fun a c => bumpAssoc a c.suit 1) acc) su
        = assocLookup acc su + l.countP (fun c => decide (c.suit = su)) := by
    intro l
    induction l with
    | nil => simp
    | cons c rest ih =>
      intro acc
      rw [List.foldl_cons, ih, assocLookup_bumpAssoc, List.countP_cons]
      by_cases h : c.suit = su
      · rw [if_pos h]
        simp [h]
        omega
      · rw [if_neg h]
        simp [h]
  have h0 : assocLookup [] su = 0 := rfl
  rw [suitCountsOf, aux hand [], h0, Nat.zero_add]

lemma suitCountsOf_pos_iff (hand : List Card) (su : Suit) :
    assocLookup (suitCountsOf hand) su ≠ 0 ↔ ∃ c ∈ hand, c.suit = su := by
  rw [suitCountsOf_lookup, ← Nat.pos_iff_ne_zero, List.countP_pos_iff]
  simp

lemma mem_keys_bumpAssoc (l : List (Suit × Nat)) (s : Suit) (v : Nat) (x : Suit) :
    x ∈ (bumpAssoc l s v).map Prod.fst ↔ x ∈ l.map Prod.fst ∨ x = s := by
  induction l with
  | nil => simp [bumpAssoc]
  | cons q rest ih =>
    obtain ⟨t, w⟩ := q
    by_cases ht : t = s
    · subst ht
      have hb : bumpAssoc ((t, w) :: rest) t v = (t, w + v) :: rest := by
        rw [bumpAssoc]
        rw [if_pos rfl]
      rw [hb]
      simp only [List.map_cons, List.mem_cons]
      tauto
    · have hb : bumpAssoc ((t, w) :: rest) s v = (t, w) :: bumpAssoc rest s v := by
        rw [bumpAssoc]
        rw [if_neg ht]
      rw [hb]
      simp only [List.map_cons, List.mem_cons, ih]
      tauto

lemma keys_nodup_bumpAssoc (l : List (Suit × Nat)) (s : Suit) (v : Nat)
    (h : (l.map Prod.fst).Nodup) : ((bumpAssoc l s v).map Prod.fst).Nodup := by
  induction l with
  | nil => simp [bumpAssoc]
  | cons q rest ih =>
    obtain ⟨t, w⟩ := q
    rw [List.map_cons, List.nodup_cons] at h
    by_cases ht : t = s
    · rw [bumpAssoc, if_pos ht, List.map_cons, List.nodup_cons]
      exact ⟨h.1, h.2⟩
    · rw [bumpAssoc, if_neg ht, List.map_cons, List.nodup_cons]
      refine ⟨?_, ih h.2⟩
      rw [mem_keys_bumpAssoc]
      rintro (h1 | h2)
      · exact h.1 h1
      · exact ht h2

lemma pointsBySuit_keys_nodup (cards : List Card) :
    ((pointsBySuit cards).map Prod.fst).Nodup := by
  have aux : ∀ (l : List Card) (acc : List (Suit × Nat)), (acc.map Prod.fst).Nodup →
      ((l.foldl (fun a c => bumpAssoc a c.suit (getCardValue c)) acc).map Prod.fst).Nodup := by
    intro l
    induction l with
    | nil => exact fun acc h => h
    | cons c rest ih =>
      intro acc hacc
      rw [List.foldl_cons]
      exact ih _ (keys_nodup_bumpAssoc acc c.suit (getCardValue c) hacc)
  exact aux cards [] (by simp)

lemma assocLookup_of_mem (l : List (Suit × Nat)) (p : Suit × Nat)
    (hnd : (l.map Prod.fst).Nodup) (hp : p ∈ l) : assocLookup l p.1 = p.2 := by
  induction l with
  | nil => simp at hp
  | cons q rest ih =>
    obtain ⟨t, w⟩ := q
    rw [List.map_cons, List.nodup_cons] at hnd
    rcases List.mem_cons.mp hp with hp1 | hp2
    · subst hp1
      rw [assocLookup, if_pos rfl]
    · rw [assocLookup]
      by_cases ht : t = p.1
      · exfalso
        apply hnd.1
        rw [ht]
        exact List.mem_map.mpr ⟨p, hp2, rfl⟩
      · rw [if_neg ht]
        exact ih hnd.2 hp2

/-- The key reduce over lookups agrees with the direct last-tie argmax
scan over the pairs, as long as every key lookup returns its paired
value. -/
lemma keysFold_eq_pairFold (pts : List (Suit × Nat)) :
    ∀ (l : List (Suit × Nat)) (a : Suit × Nat),
      assocLookup pts a.1 = a.2 → (∀ p ∈ l, assocLookup pts p.1 = p.2) →
      ∃ m, l.foldl pairStepLast (some a) = some m ∧
        (l.map Prod.fst).foldl (reduceStep pts) a.1 = m.1 ∧
        assocLookup pts m.1 = m.2 := by
  intro l
  induction l with
  | nil => exact fun a ha _ => ⟨a, rfl, rfl, ha⟩
  | cons q rest ih =>
    intro a ha hl
    have hq : assocLookup pts q.1 = q.2 := hl q (List.mem_cons_self _ _)
    have hrest : ∀ p ∈ rest, assocLookup pts p.1 = p.2 :=
      fun p hp => hl p (List.mem_cons_of_mem _ hp)
    rw [List.map_cons, List.foldl_cons, List.foldl_cons]
    by_cases h : q.2 ≥ a.2
    · rw [show pairStepLast (some a) q = some q from by rw [pairStepLast, if_pos h],
        show reduceStep pts a.1 q.1 = q.1 from by
          rw [reduceStep, ha, hq, if_neg (by omega)]]
      exact ih q hq hrest
    · rw [show pairStepLast (some a) q = some a from by rw [pairStepLast, if_neg h],
        show reduceStep pts a.1 q.1 = a.1 from by
          rw [reduceStep, ha, hq, if_pos (by omega)]]
      exact ih a ha hrest

/-- The strongest-suit reduce of the draw decision equals the last-tie
argmax over the per-suit totals. -/
lemma strongestSuitReduce_eq_lastTie (pts : List (Suit × Nat))
    (hnd : (pts.map Prod.fst).Nodup) :
    strongestSuitReduce pts = specStrongestLastTie pts := by
  cases pts with
  | nil => rfl
  | cons p0 rest =>
    have hp0 : assocLookup (p0 :: rest) p0.1 = p0.2 :=
      assocLookup_of_mem _ p0 hnd (List.mem_cons_self _ _)
    have hrest : ∀ p ∈ rest, assocLookup (p0 :: rest) p.1 = p.2 :=
      fun p hp => assocLookup_of_mem _ p hnd (List.mem_cons_of_mem _ hp)
    obtain ⟨m, hm1, hm2, _⟩ := keysFold_eq_pairFold (p0 :: rest) rest p0 hp0 hrest
    simp only [strongestSuitReduce, specStrongestLastTie, List.map_cons, List.foldl_cons]
    rw [show reduceStep (p0 :: rest) p0.1 p0.1 = p0.1 from by rw [reduceStep]; exact ite_self _]
    rw [show pairStepLast none p0 = some p0 from rfl]
    rw [hm1, hm2]
    rfl

/-! Helper lemmas about the deck-manager draw and the flow guards; the
claim theorems below apply them. -/

lemma foldl_maxDepth (rest : List SpriteCard) :
    ∀ acc : SpriteCard,
      ((rest.foldl (fun hi cur => if cur.depth > hi.depth then cur else hi) acc) = acc ∨
        (rest.foldl (fun hi cur => if cur.depth > hi.depth then cur else hi) acc) ∈ rest) ∧
      acc.depth ≤ (rest.foldl (fun hi cur => if cur.depth > hi.depth then cur else hi) acc).depth ∧
      ∀ c ∈ rest, c.depth ≤
        (rest.foldl (fun hi cur => if cur.depth > hi.depth then cur else hi) acc).depth := by
  induction rest with
  | nil => exact fun acc => ⟨Or.inl rfl, le_refl _, by simp⟩
  | cons cur rest2 ih =>
    intro acc
    rw [List.foldl_cons]
    by_cases h : cur.depth > acc.depth
    · rw [if_pos h]
      obtain ⟨hmem, hle, hall⟩ := ih cur
      refine ⟨?_, le_trans (le_of_lt h) hle, ?_⟩
      · rcases hmem with h1 | h2
        · exact Or.inr (by rw [h1]; exact List.mem_cons_self _ _)
        · exact Or.inr (List.mem_cons_of_mem _ h2)
      · intro c hc
        rcases List.mem_cons.mp hc with hc1 | hc2
        · exact hc1 ▸ hle
        · exact hall c hc2
    · rw [if_neg h]
      obtain ⟨hmem, hle, hall⟩ := ih acc
      refine ⟨?_, hle, ?_⟩
      · rcases hmem with h1 | h2
        · exact Or.inl h1
        · exact Or.inr (List.mem_cons_of_mem _ h2)
      · intro c hc
        rcases List.mem_cons.mp hc with hc1 | hc2
        · exact hc1 ▸ le_trans (Nat.le_of_not_lt h) hle
        · exact hall c hc2

lemma topByDepth_spec (l : List SpriteCard) (h : l ≠ []) :
    ∃ t, topByDepth l = some t ∧ t ∈ l ∧ ∀ c ∈ l, c.depth ≤ t.depth := by
  cases l with
  | nil => exact absurd rfl h
  | cons d0 rest =>
    rw [topByDepth, List.foldl_cons]
    rw [show (if d0.depth > d0.depth then d0 else d0) = d0 from ite_self d0]
    obtain ⟨hmem, hle, hall⟩ := foldl_maxDepth rest d0
    refine ⟨_, rfl, ?_, ?_⟩
    · rcases hmem with h1 | h2
      · rw [h1]
        exact List.mem_cons_self _ _
      · exact List.mem_cons_of_mem _ h2
    · intro c hc
      rcases List.mem_cons.mp hc with hc1 | hc2
      · exact hc1 ▸ hle
      · exact hall c hc2

lemma moveFlow_guard_unchanged (isPlayer1 : Bool) (source : DrawSource) (s : Session)
    (h : drawGuardFails isPlayer1 s.gs = true) :
    moveCardToPlayerFlow isPlayer1 source s = s := by
  rw [moveCardToPlayerFlow, if_pos h]

lemma discardFlow_guard_unchanged (isPlayer1 : Bool) (card : Card) (s : Session)
    (h : discardGuardFails isPlayer1 s.gs = true) :
    discardCardFlow isPlayer1 card s = s := by
  rw [discardCardFlow, if_pos h]

lemma findWorst_none_short (cards : List Card) (h : cards.length ≤ 3) :
    findWorstCardConsideringSuits cards = none := by
  rw [findWorstCardConsideringSuits, if_pos h]

/-- Behaviour of the opponent's guarded draw when neither knock nor
animation blocks it: either the source was empty and only the animation
flags moved (the stuck case), or one card was appended to hand 2 with
the draw flags set. -/
lemma moveFlow_p2_spec (src : DrawSource) (s : Session)
    (hk : s.gs.knockButtonPressed = false) (ha : s.gs.isAnimating = false) :
    (moveCardToPlayerFlow false src s).hand1 = s.hand1 ∧
    (moveCardToPlayerFlow false src s).gs.isPlayerTurn = s.gs.isPlayerTurn ∧
    (moveCardToPlayerFlow false src s).gs.knockButtonPressed = false ∧
    (((moveCardToPlayerFlow false src s).hand2 = s.hand2 ∧
      (moveCardToPlayerFlow false src s).gs.mustDiscard = s.gs.mustDiscard ∧
      (moveCardToPlayerFlow false src s).gs.isAnimating = true) ∨
     (∃ c, (moveCardToPlayerFlow false src s).hand2 = s.hand2 ++ [c] ∧
      (moveCardToPlayerFlow false src s).gs.mustDiscard = true ∧
      (moveCardToPlayerFlow false src s).gs.isAnimating = false)) := by
  have hguard : ¬ drawGuardFails false s.gs = true := by
    simp [drawGuardFails, hk, ha]
  rw [moveCardToPlayerFlow, if_neg hguard]
  cases src with
  | Deck =>
    cases hd : s.deck with
    | nil =>
      refine ⟨?_, ?_, ?_, Or.inl ⟨?_, ?_, ?_⟩⟩ <;> simp [takeTop, hd, hk]
    | cons c rest =>
      refine ⟨?_, ?_, ?_, Or.inr ⟨c, ?_, ?_, ?_⟩⟩ <;>
        simp [takeTop, hd, giveCardToPlayer, hk]
  | DiscardPile =>
    cases hd : s.pile.getLast? with
    | none =>
      refine ⟨?_, ?_, ?_, Or.inl ⟨?_, ?_, ?_⟩⟩ <;> simp [takeTop, hd, hk]
    | some c =>
      refine ⟨?_, ?_, ?_, Or.inr ⟨c, ?_, ?_, ?_⟩⟩ <;>
        simp [takeTop, hd, giveCardToPlayer, hk]

/-- Behaviour of the opponent's guarded discard when neither knock nor
animation blocks it. -/
lemma discardFlow_p2_spec (w : Card) (s : Session)
    (hk : s.gs.knockButtonPressed = false) (ha : s.gs.isAnimating = false) :
    (discardCardFlow false w s).hand1 = s.hand1 ∧
    (discardCardFlow false w s).hand2 = s.hand2.erase w ∧
    (discardCardFlow false w s).gs.mustDiscard = false ∧
    (discardCardFlow false w s).gs.isAnimating = false ∧
    (discardCardFlow false w s).gs.knockButtonPressed = false ∧
    (discardCardFlow false w s).gs.isPlayerTurn = s.gs.isPlayerTurn := by
  have hguard : ¬ discardGuardFails false s.gs = true := by
    simp [discardGuardFails, hk, ha]
  rw [discardCardFlow, if_neg hguard]
  refine ⟨?_, ?_, ?_, ?_, ?_, ?_⟩ <;> simp [hk]

/-- Behaviour of player 1's guarded draw when the whole guard chain
passes and the clicked source sprite exists. -/
lemma moveFlow_p1_spec (src : DrawSource) (s : Session)
    (hp : s.gs.isPlayerTurn = true) (hdr : s.gs.hasDrawnCard = false)
    (hk : s.gs.knockButtonPressed = false) (ha : s.gs.isAnimating = false)
    (hne : match src with
      | DrawSource.Deck => s.deck ≠ []
      | DrawSource.DiscardPile => s.pile ≠ []) :
    ∃ c, (moveCardToPlayerFlow true src s).hand1 = s.hand1 ++ [c] ∧
      (moveCardToPlayerFlow true src s).hand2 = s.hand2 ∧
      (moveCardToPlayerFlow true src s).gs.mustDiscard = true ∧
      (moveCardToPlayerFlow true src s).gs.isAnimating = false ∧
      (moveCardToPlayerFlow true src s).gs.knockButtonPressed = false ∧
      (moveCardToPlayerFlow true src s).gs.isPlayerTurn = true := by
  have hguard : ¬ drawGuardFails true s.gs = true := by
    simp [drawGuardFails, hp, hdr, hk, ha]
  rw [moveCardToPlayerFlow, if_neg hguard]
  cases src with
  | Deck =>
    cases hd : s.deck with
    | nil => exact absurd hd hne
    | cons c rest =>
      refine ⟨c, ?_, ?_, ?_, ?_, ?_, ?_⟩ <;>
        simp [takeTop, hd, giveCardToPlayer, hp, hk]
  | DiscardPile =>
    cases hd : s.pile.getLast? with
    | none => exact absurd (List.getLast?_eq_none_iff.mp hd) hne
    | some c =>
      refine ⟨c, ?_, ?_, ?_, ?_, ?_, ?_⟩ <;>
        simp [takeTop, hd, giveCardToPlayer, hp, hk]

/-- Behaviour of player 1's guarded discard when the guard chain
passes. -/
lemma discardFlow_p1_spec (w : Card) (s : Session)
    (hp : s.gs.isPlayerTurn = true) (hmd : s.gs.mustDiscard = true)
    (hdis : s.gs.hasDiscardedCard = false)
    (hk : s.gs.knockButtonPressed = false) (ha : s.gs.isAnimating = false) :
    (discardCardFlow true w s).hand1 = s.hand1.erase w ∧
    (discardCardFlow true w s).hand2 = s.hand2 ∧
    (discardCardFlow true w s).gs.mustDiscard = false ∧
    (discardCardFlow true w s).gs.isAnimating = false ∧
    (discardCardFlow true w s).gs.knockButtonPressed = false ∧
    (discardCardFlow true w s).gs.isPlayerTurn = true := by
  have hguard : ¬ discardGuardFails true s.gs = true := by
    simp [discardGuardFails, hp, hmd, hdis, hk, ha]
  rw [discardCardFlow, if_neg hguard]
  refine ⟨?_, ?_, ?_, ?_, ?_, ?_⟩ <;> simp [hk, hp]

lemma dealCards_shape (deck : List Card) (r : List Card × List Card × Card × List Card)
    (h : dealCards deck = some r) :
    ∃ c0 c1 c2 c3 c4 c5 c6 rest, deck = c0 :: c1 :: c2 :: c3 :: c4 :: c5 :: c6 :: rest ∧
      r = ([c0, c2, c4], [c1, c3, c5], c6, rest) := by
  rcases deck with _ | ⟨c0, _ | ⟨c1, _ | ⟨c2, _ | ⟨c3, _ | ⟨c4, _ | ⟨c5, _ | ⟨c6, rest⟩⟩⟩⟩⟩⟩⟩
  · exact Option.noConfusion h
  · exact Option.noConfusion h
  · exact Option.noConfusion h
  · exact Option.noConfusion h
  · exact Option.noConfusion h
  · exact Option.noConfusion h
  · exact Option.noConfusion h
  · exact ⟨c0, c1, c2, c3, c4, c5, c6, rest, rfl, (Option.some.inj h).symm⟩

lemma sessionInv_afterDeal (deck : List Card) (s : Session)
    (h : sessionAfterDeal deck = some s) : SessionInv s := by
  rw [sessionAfterDeal] at h
  cases hd : dealCards deck with
  | none =>
    rw [hd] at h
    exact Option.noConfusion h
  | some r =>
    rw [hd] at h
    obtain ⟨c0, c1, c2, c3, c4, c5, c6, rest, hdeck, hr⟩ := dealCards_shape deck r hd
    subst hr
    rw [← Option.some.inj h]
    exact ⟨Or.inl rfl, Or.inl rfl, by simp [initialGameState], by simp, by simp,
      by simp [initialGameState]⟩

lemma sessionInv_deckClick (s : Session) (hinv : SessionInv s) (hne : s.deck ≠ []) :
    SessionInv (clickDeckTopCard s) := by
  obtain ⟨h1, h2, hmd, hc4, hd4, hani⟩ := hinv
  rw [clickDeckTopCard]
  by_cases hsite : (s.gs.cardsInteractable && !s.gs.mustDiscard && !s.gs.isAnimating) = true
  case neg =>
    rw [if_neg hsite]
    exact ⟨h1, h2, hmd, hc4, hd4, hani⟩
  case pos =>
    rw [if_pos hsite]
    simp only [Bool.and_eq_true, Bool.not_eq_true'] at hsite
    obtain ⟨⟨hci, hmdf⟩, haf⟩ := hsite
    by_cases hg : drawGuardFails true s.gs = true
    · rw [moveFlow_guard_unchanged true DrawSource.Deck s hg]
      exact ⟨h1, h2, hmd, hc4, hd4, hani⟩
    · have hgf : s.gs.isPlayerTurn = true ∧ s.gs.hasDrawnCard = false ∧
          s.gs.knockButtonPressed = false := by
        simp only [drawGuardFails, if_true, Bool.or_eq_true, Bool.not_eq_true'] at hg
        push_neg at hg
        exact ⟨by simpa using hg.1.1.1, by simpa using hg.1.1.2, by simpa using hg.1.2⟩
      obtain ⟨c, hh1, hh2, hmd2, hani2, hk2, hip2⟩ :=
        moveFlow_p1_spec DrawSource.Deck s hgf.1 hgf.2.1 hgf.2.2 haf hne
      have hl1 : s.hand1.length = 3 := by
        rcases h1 with h | h
        · exact h
        · exact absurd (hmd.mpr (Or.inl h)) (by simp [hmdf])
      have hl2 : s.hand2.length = 3 := by
        rcases h2 with h | h
        · exact h
        · exact absurd (hmd.mpr (Or.inr h)) (by simp [hmdf])
      refine ⟨Or.inr ?_, Or.inl ?_, ?_, ?_, ?_, ?_⟩
      · rw [hh1, List.length_append, hl1]
        rfl
      · rw [hh2]
        exact hl2
      · rw [hmd2, hh1, List.length_append, hl1]
        simp
      · intro _
        exact hip2
      · intro hcon
        rw [hh2] at hcon
        omega
      · intro hcon
        rw [hani2] at hcon
        exact Bool.noConfusion hcon

lemma sessionInv_pileClick (s : Session) (hinv : SessionInv s) (hne : s.pile ≠ []) :
    SessionInv (clickPileTopCard s) := by
  obtain ⟨h1, h2, hmd, hc4, hd4, hani⟩ := hinv
  rw [clickPileTopCard]
  by_cases hsite : (s.gs.cardsInteractable && !s.gs.isAnimating && !s.gs.mustDiscard) = true
  case neg =>
    rw [if_neg hsite]
    exact ⟨h1, h2, hmd, hc4, hd4, hani⟩
  case pos =>
    rw [if_pos hsite]
    simp only [Bool.and_eq_true, Bool.not_eq_true'] at hsite
    obtain ⟨⟨hci, haf⟩, hmdf⟩ := hsite
    by_cases hg : drawGuardFails true s.gs = true
    · rw [moveFlow_guard_unchanged true DrawSource.DiscardPile s hg]
      exact ⟨h1, h2, hmd, hc4, hd4, hani⟩
    · have hgf : s.gs.isPlayerTurn = true ∧ s.gs.hasDrawnCard = false ∧
          s.gs.knockButtonPressed = false := by
        simp only [drawGuardFails, if_true, Bool.or_eq_true, Bool.not_eq_true'] at hg
        push_neg at hg
        exact ⟨by simpa using hg.1.1.1, by simpa using hg.1.1.2, by simpa using hg.1.2⟩
      obtain ⟨c, hh1, hh2, hmd2, hani2, hk2, hip2⟩ :=
        moveFlow_p1_spec DrawSource.DiscardPile s hgf.1 hgf.2.1 hgf.2.2 haf hne
      have hl1 : s.hand1.length = 3 := by
        rcases h1 with h | h
        · exact h
        · exact absurd (hmd.mpr (Or.inl h)) (by simp [hmdf])
      have hl2 : s.hand2.length = 3 := by
        rcases h2 with h | h
        · exact h
        · exact absurd (hmd.mpr (Or.inr h)) (by simp [hmdf])
      refine ⟨Or.inr ?_, Or.inl ?_, ?_, ?_, ?_, ?_⟩
      · rw [hh1, List.length_append, hl1]
        rfl
      · rw [hh2]
        exact hl2
      · rw [hmd2, hh1, List.length_append, hl1]
        simp
      · intro _
        exact hip2
      · intro hcon
        rw [hh2] at hcon
        omega
      · intro hcon
        rw [hani2] at hcon
        exact Bool.noConfusion hcon

lemma sessionInv_handClick (card : Card) (s : Session) (hinv : SessionInv s) :
    SessionInv (clickHandCard card s) := by
  obtain ⟨h1, h2, hmd, hc4, hd4, hani⟩ := hinv
  rw [clickHandCard]
  by_cases hsite : (s.gs.cardsInteractable && !s.gs.isAnimating && s.hand1.contains card
      && s.gs.mustDiscard) = true
  case neg =>
    rw [if_neg hsite]
    exact ⟨h1, h2, hmd, hc4, hd4, hani⟩
  case pos =>
    rw [if_pos hsite]
    simp only [Bool.and_eq_true, Bool.not_eq_true'] at hsite
    obtain ⟨⟨⟨hci, haf⟩, hcontains⟩, hmdt⟩ := hsite
    by_cases hg : discardGuardFails true s.gs = true
    · rw [discardFlow_guard_unchanged true card s hg]
      exact ⟨h1, h2, hmd, hc4, hd4, hani⟩
    · have hgf : s.gs.isPlayerTurn = true ∧ s.gs.hasDiscardedCard = false ∧
          s.gs.knockButtonPressed = false := by
        simp only [discardGuardFails, if_true, Bool.or_eq_true, Bool.not_eq_true'] at hg
        push_neg at hg
        exact ⟨by simpa using hg.1.1.1.1, by simpa using hg.1.1.2, by simpa using hg.1.2⟩
      obtain ⟨hh1, hh2, hmd2, hani2, hk2, hip2⟩ :=
        discardFlow_p1_spec card s hgf.1 hmdt hgf.2.1 hgf.2.2 haf
      have hmem : card ∈ s.hand1 := by
        rw [← List.elem_iff]
        exact hcontains
      have hl1 : s.hand1.length = 4 := by
        rcases hmd.mp hmdt with h | h
        · exact h
        · exact absurd (hd4 h) (by simp [hgf.1])
      have hl2 : s.hand2.length = 3 := by
        rcases h2 with h | h
        · exact h
        · exact absurd (hd4 h) (by simp [hgf.1])
      refine ⟨Or.inl ?_, Or.inl ?_, ?_, ?_, ?_, ?_⟩
      · rw [hh1, List.length_erase_of_mem hmem, hl1]
      · rw [hh2]
        exact hl2
      · rw [hmd2, hh1, hh2, List.length_erase_of_mem hmem, hl1, hl2]
        simp
      · intro hcon
        rw [hh1, List.length_erase_of_mem hmem, hl1] at hcon
        omega
      · intro hcon
        rw [hh2] at hcon
        omega
      · intro hcon
        rw [hani2] at hcon
        exact Bool.noConfusion hcon

lemma sessionInv_knockClick (s : Session) (hinv : SessionInv s) :
    SessionInv (clickKnock s) := by
  rw [clickKnock]
  split
  · exact hinv
  · exact hinv

lemma sessionInv_sort (s : Session) (l : List Card) (hinv : SessionInv s)
    (hp : s.hand1.Perm l) : SessionInv { s with hand1 := l } := by
  obtain ⟨h1, h2, hmd, hc4, hd4, hani⟩ := hinv
  have hlen : l.length = s.hand1.length := hp.length_eq.symm
  refine ⟨?_, h2, ?_, ?_, hd4, hani⟩
  · show l.length = 3 ∨ l.length = 4
    rw [hlen]
    exact h1
  · show s.gs.mustDiscard = true ↔ (l.length = 4 ∨ s.hand2.length = 4)
    rw [hlen]
    exact hmd
  · show l.length = 4 → s.gs.isPlayerTurn = true
    rw [hlen]
    exact hc4

lemma sessionInv_of_fields (s : Session) (h1 : s.hand1.length = 3) (h2 : s.hand2.length = 3)
    (hmd : s.gs.mustDiscard = false)
    (hani : s.gs.isAnimating = true → s.gs.isPlayerTurn = false) : SessionInv s := by
  refine ⟨Or.inl h1, Or.inl h2, ?_, ?_, ?_, hani⟩
  · rw [hmd]
    constructor
    · intro hcon
      exact Bool.noConfusion hcon
    · intro hcon
      exfalso
      rcases hcon with hcon | hcon <;> omega
  · intro hcon
    exfalso
    omega
  · intro hcon
    exfalso
    omega

lemma sessionInv_endTurn (g2 : Bool) (thr : Fin 5) (g7 : Bool) (s : Session)
    (hinv : SessionInv s) : SessionInv (clickEndTurn g2 thr g7 s) := by
  obtain ⟨h1, h2, hmd, hc4, hd4, hani⟩ := hinv
  rw [clickEndTurn]
  by_cases hguard : (!s.gs.knockButtonPressed && s.gs.isPlayerTurn && s.hand1.length == 3) = true
  case neg =>
    rw [if_neg hguard]
    exact ⟨h1, h2, hmd, hc4, hd4, hani⟩
  case pos =>
    rw [if_pos hguard]
    simp only [Bool.and_eq_true, Bool.not_eq_true', beq_iff_eq] at hguard
    obtain ⟨⟨hknock, hipt⟩, hlen1⟩ := hguard
    have hani0 : s.gs.isAnimating = false := by
      cases hval : s.gs.isAnimating
      · rfl
      · exact absurd (hani hval) (by simp [hipt])
    have hlen2 : s.hand2.length = 3 := by
      rcases h2 with h | h
      · exact h
      · exact absurd (hd4 h) (by simp [hipt])
    rw [executePlayer2Turn]
    have ht0k : (endTurnFlags s).gs.knockButtonPressed = false := hknock
    have ht0a : (endTurnFlags s).gs.isAnimating = false := hani0
    obtain ⟨hd1, hdip, hdk, hdisj⟩ :=
      moveFlow_p2_spec (chooseDrawSource (endTurnFlags s).hand2 (endTurnFlags s).pile g2)
        (endTurnFlags s) ht0k ht0a
    rw [player2DrawPhase] at *
    set t1 := moveCardToPlayerFlow false
      (chooseDrawSource (endTurnFlags s).hand2 (endTurnFlags s).pile g2) (endTurnFlags s) with ht1
    have ht1h1 : t1.hand1.length = 3 := by
      rw [hd1]
      exact hlen1
    have ht1ip : t1.gs.isPlayerTurn = false := by
      rw [hdip]
      rfl
    rcases hdisj with ⟨hstk2, hstkmd, hstka⟩ | ⟨c, hsuc2, hsucmd, hsuca⟩
    · -- stuck draw: the source was empty, hand 2 still has 3 cards and
      -- the discard phase does nothing
      have ht1h2 : t1.hand2.length = 3 := by
        rw [hstk2]
        exact hlen2
      have hnone : findWorstCardConsideringSuits t1.hand2 = none :=
        findWorst_none_short t1.hand2 (by omega)
      rw [player2DiscardPhase, hnone]
      exact sessionInv_of_fields t1 ht1h1 ht1h2
        (by rw [hstkmd]; rfl) (fun _ => ht1ip)
    · -- successful draw: hand 2 has 4 cards, the AI discards one and
      -- then either knocks or hands the turn back
      have ht1h2 : t1.hand2.length = 4 := by
        rw [hsuc2]
        show (s.hand2 ++ [c]).length = 4
        simp [hlen2]
      obtain ⟨w, hw⟩ := findWorst_isSome4 t1.hand2 ht1h2
      have hwmem : w ∈ t1.hand2 := findWorst_mem4 t1.hand2 w ht1h2 hw
      obtain ⟨he1, he2, hemd, hea, hek, heip⟩ := discardFlow_p2_spec w t1 (by rw [hdk]) hsuca
      have hphase : player2DiscardPhase thr g7 t1 =
          if shouldKnockDecision (maxPoints t1.hand2) (maxPoints t1.hand1) thr g7 = true then
            player2KnockEffect (discardCardFlow false w t1)
          else startPlayer1TurnEffect (discardCardFlow false w t1) := by
        rw [player2DiscardPhase, hw]
      rw [hphase]
      have ht2h1 : (discardCardFlow false w t1).hand1.length = 3 := by
        rw [he1]
        exact ht1h1
      have ht2h2 : (discardCardFlow false w t1).hand2.length = 3 := by
        rw [he2, List.length_erase_of_mem hwmem, ht1h2]
      have ht2ip : (discardCardFlow false w t1).gs.isPlayerTurn = false := by
        rw [heip]
        exact ht1ip
      split
      · -- the AI knocks
        exact sessionInv_of_fields (player2KnockEffect (discardCardFlow false w t1))
          ht2h1 ht2h2 hemd (fun hcon => Bool.noConfusion (hea.symm.trans hcon))
      · -- the AI hands the turn back to player 1
        exact sessionInv_of_fields (startPlayer1TurnEffect (discardCardFlow false w t1))
          ht2h1 ht2h2 hemd (fun hcon => Bool.noConfusion (hea.symm.trans hcon))

/-- Every reachable session state satisfies the session invariant. -/
lemma reachable_sessionInv (s : Session) (h : Reachable s) : SessionInv s := by
  induction h with
  | init hperm hdeal => exact sessionInv_afterDeal _ _ hdeal
  | deckClick _ hne ih => exact sessionInv_deckClick _ ih hne
  | pileClick _ hne ih => exact sessionInv_pileClick _ ih hne
  | handClick card _ ih => exact sessionInv_handClick card _ ih
  | endTurn g2 thr g7 _ ih => exact sessionInv_endTurn g2 thr g7 _ ih
  | knockClick _ ih => exact sessionInv_knockClick _ ih
  | sortHand1 _ hperm ih => exact sessionInv_sort _ _ ih hperm
  | restartClick _ hperm hdeal ih => exact sessionInv_afterDeal _ _ hdeal

/-! Claim theorems. -/

/-- Claim C1, counterexample: on the opponent hand [2♠, 9♠, 7♥, A♥] the
code computes strongestSuit = Hearts (7 + 11 = 18 beats the 11 of
Spades), not Spades, and `findWorstCardConsideringSuits` returns 2♠, not
7♥ as the claim states. -/
theorem c1_spec_example_miscomputed :
    strongestSuitScan (pointsBySuit exC1hand) = some Suit.Hearts ∧
    strongestSuitScan (pointsBySuit exC1hand) ≠ some Suit.Spades ∧
    findWorstCardConsideringSuits exC1hand = some { suit := Suit.Spades, rank := Rank.r2 } ∧
    findWorstCardConsideringSuits exC1hand ≠ some { suit := Suit.Hearts, rank := Rank.r7 } := by
  decide

/-- Claim C1 as amended: for the opponent hand [2♠, 9♠, 7♥, A♥] the AI
discard choice computes strongestSuit = Hearts (18), leaving the spade
cards as candidates, and returns the card 2♠. -/
theorem c1_ai_discard_example :
    findWorstCardConsideringSuits exC1hand = some { suit := Suit.Spades, rank := Rank.r2 } ∧
    strongestSuitScan (pointsBySuit exC1hand) = some Suit.Hearts ∧
    maxPoints exC1hand = 18 := by
  decide

/-- Claim C2, counterexample: with the mono-spade hand 2♠ 3♠ 4♠ and the
discard pile [2♥ (oldest), 5♠ (top, most recent)], the claim's rule
examines the top card 5♠, whose suit is the strongest suit, and demands
the DiscardPile; the code examines the pile's first (oldest) element 2♥
and chooses the Deck. -/
theorem c2_draw_decision_examines_oldest_ce :
    chooseDrawSourceClaim exC2hand exC2pile false = DrawSource.DiscardPile ∧
    chooseDrawSource exC2hand exC2pile false = DrawSource.Deck := by
  decide

/-- Claim C2 as amended: the AI draw-source decision agrees, on every
hand, pile and random sample, with the claim's rule after two repairs —
the examined card is the first (oldest) element of the discard-pile
container list rather than the top, and strongest-suit ties go to the
last suit encountered rather than the first. -/
theorem c2_chooseDrawSource_matches_amended_model :
    ∀ (hand pile : List Card) (randGt02 : Bool),
      chooseDrawSource hand pile randGt02 = chooseDrawSourceAmended hand pile randGt02 := by
  intro hand pile r
  cases pile with
  | nil => rfl
  | cons c rest =>
    simp only [chooseDrawSource, chooseDrawSourceAmended, List.head?_cons]
    refine if_congr (or_congr ?_ (or_congr ?_ Iff.rfl)) rfl rfl
    · rw [strongestSuitReduce_eq_lastTie (pointsBySuit hand) (pointsBySuit_keys_nodup hand)]
    · exact and_congr_right (fun _ => suitCountsOf_pos_iff hand c.suit)

/-- Claim C3, counterexample: on a concrete seven-card deck the claim's
blockwise deal (top 3 → Hand1, next 3 → Hand2) disagrees with the code,
which alternates the first six cards between the hands. -/
theorem c3_deal_not_blockwise_ce :
    dealInitialClaim exC3deck
      = some ([{ suit := Suit.Clubs, rank := Rank.r2 }, { suit := Suit.Clubs, rank := Rank.r3 },
               { suit := Suit.Clubs, rank := Rank.r4 }],
              [{ suit := Suit.Clubs, rank := Rank.r5 }, { suit := Suit.Clubs, rank := Rank.r6 },
               { suit := Suit.Clubs, rank := Rank.r7 }],
              { suit := Suit.Clubs, rank := Rank.r8 }, []) ∧
    dealCards exC3deck
      = some ([{ suit := Suit.Clubs, rank := Rank.r2 }, { suit := Suit.Clubs, rank := Rank.r4 },
               { suit := Suit.Clubs, rank := Rank.r6 }],
              [{ suit := Suit.Clubs, rank := Rank.r3 }, { suit := Suit.Clubs, rank := Rank.r5 },
               { suit := Suit.Clubs, rank := Rank.r7 }],
              { suit := Suit.Clubs, rank := Rank.r8 }, []) ∧
    dealCards exC3deck ≠ dealInitialClaim exC3deck := by
  decide

/-- Claim C3 as amended: the initial deal removes the top seven cards of
the shuffled deck, dealing the 1st, 3rd and 5th into Hand1 and the 2nd,
4th and 6th into Hand2 alternately, puts the 7th card as the first
discard-pile card, and leaves the rest as the remaining deck. -/
theorem c3_dealCards_alternates :
    ∀ (c0 c1 c2 c3 c4 c5 c6 : Card) (rest : List Card),
      dealCards (c0 :: c1 :: c2 :: c3 :: c4 :: c5 :: c6 :: rest)
        = some ([c0, c2, c4], [c1, c3, c5], c6, rest) := by
  intro c0 c1 c2 c3 c4 c5 c6 rest
  rfl

/-- Claim C4, counterexample: on the hand [5♥, 3♦, A♠, 3♥] the two
lowest non-strongest cards 3♦ and 3♥ tie on value; the claim's
first-in-hand-order tie-break picks 3♦ (index 1), but the code's
suit-grouped scan reaches 3♥ first (Hearts is the first-seen suit) and
returns it. -/
theorem c4_tiebreak_not_hand_order_ce :
    chooseDiscardClaim exC4hand = some { suit := Suit.Diamonds, rank := Rank.r3 } ∧
    findWorstCardConsideringSuits exC4hand = some { suit := Suit.Hearts, rank := Rank.r3 } ∧
    findWorstCardConsideringSuits exC4hand ≠ chooseDiscardClaim exC4hand := by
  decide

/-- Claim C4 as amended: for every four-card hand the AI discard choice
returns the lowest-value card among cards not in the strongest suit,
and the lowest-value card within the strongest suit when the hand is
mono-suit; ties on value are broken by the traversal order that groups
cards by suit in suit-first-seen order (hand order within a suit), not
by plain hand order. The returned card is the unique element of that
candidate pool preceded only by strictly greater values. -/
theorem c4_findWorst_first_min_grouped :
    ∀ hand : List Card, hand.length = 4 →
      ∃ (mfin : Card × Nat) (pre post : List (Card × Nat)),
        findWorstCardConsideringSuits hand = some mfin.1 ∧
        mfin.1 ∈ hand ∧ mfin.2 = getCardValue mfin.1 ∧
        (if nonStrongestCands hand = [] then strongGroupOf hand else nonStrongestCands hand)
          = pre ++ mfin :: post ∧
        (∀ p ∈ pre, mfin.2 < p.2) ∧ (∀ p ∈ post, mfin.2 ≤ p.2) :=
  findWorst_char

/-- Witness for C4's theorem at the concrete hand [2♠, 9♠, 7♥, A♥]. -/
theorem c4_findWorst_first_min_grouped_witness :
    ∃ (mfin : Card × Nat) (pre post : List (Card × Nat)),
      findWorstCardConsideringSuits exC1hand = some mfin.1 ∧
      mfin.1 ∈ exC1hand ∧ mfin.2 = getCardValue mfin.1 ∧
      (if nonStrongestCands exC1hand = [] then strongGroupOf exC1hand
        else nonStrongestCands exC1hand) = pre ++ mfin :: post ∧
      (∀ p ∈ pre, mfin.2 < p.2) ∧ (∀ p ∈ post, mfin.2 ≤ p.2) :=
  c4_findWorst_first_min_grouped exC1hand (by decide)

/-- Claim C5: a draw or discard transition whose `GameFlowManager` guard
fails returns with the session — flags, deck, both hands and the discard
pile — exactly as it was; both transitions are total functions, so no
fault is thrown. -/
theorem c5_rejected_guard_no_mutation :
    ∀ (s : Session) (isPlayer1 : Bool) (source : DrawSource) (card : Card),
      (drawGuardFails isPlayer1 s.gs = true → moveCardToPlayerFlow isPlayer1 source s = s) ∧
      (discardGuardFails isPlayer1 s.gs = true → discardCardFlow isPlayer1 card s = s) :=
  fun s p src card =>
    ⟨moveFlow_guard_unchanged p src s, discardFlow_guard_unchanged p card s⟩

/-- Witness for C5's theorem: in a session whose knock flag is set both
guards fail and both transitions leave the session unchanged. -/
theorem c5_rejected_guard_no_mutation_witness :
    moveCardToPlayerFlow true DrawSource.Deck knockedSession = knockedSession ∧
    discardCardFlow true { suit := Suit.Clubs, rank := Rank.r2 } knockedSession
      = knockedSession :=
  ⟨(c5_rejected_guard_no_mutation knockedSession true DrawSource.Deck
      { suit := Suit.Clubs, rank := Rank.r2 }).1 (by decide),
   (c5_rejected_guard_no_mutation knockedSession true DrawSource.Deck
      { suit := Suit.Clubs, rank := Rank.r2 }).2 (by decide)⟩

/-- Claim C6, counterexample: after the deal and one deck draw by
player 1 — a reachable state — the single shared `mustDiscard` flag is
true while player 2's hand still has 3 cards, so "hand size is 4 exactly
while that player's mustDiscard flag is true" fails for player 2. -/
theorem c6_mustDiscard_not_per_player_ce :
    ∃ s : Session, Reachable s ∧ s.gs.mustDiscard = true ∧ s.hand2.length ≠ 4 :=
  ⟨clickDeckTopCard demoSession,
   Reachable.deckClick (Reachable.init (List.Perm.refl buildDeck) rfl) (by decide),
   by decide, by decide⟩

/-- Claim C6 as amended: in every reachable state each hand's size is 3
or 4; `mustDiscard` is a single flag shared by both players, true
exactly while one of the hands holds 4 cards; and the two hands never
hold 4 cards at once (the 4-card hand belongs to the turn holder). -/
theorem c6_hand_sizes_and_shared_mustDiscard :
    ∀ s : Session, Reachable s →
      (s.hand1.length = 3 ∨ s.hand1.length = 4) ∧
      (s.hand2.length = 3 ∨ s.hand2.length = 4) ∧
      (s.gs.mustDiscard = true ↔ (s.hand1.length = 4 ∨ s.hand2.length = 4)) ∧
      ¬(s.hand1.length = 4 ∧ s.hand2.length = 4) := by
  intro s h
  obtain ⟨h1, h2, hmd, hc4, hd4, hani⟩ := reachable_sessionInv s h
  refine ⟨h1, h2, hmd, ?_⟩
  rintro ⟨ha, hb⟩
  exact Bool.noConfusion ((hc4 ha).symm.trans (hd4 hb))

/-- Witness for C6's theorem at the concrete post-deal session of the
identity shuffle. -/
theorem c6_hand_sizes_and_shared_mustDiscard_witness :
    (demoSession.hand1.length = 3 ∨ demoSession.hand1.length = 4) ∧
    (demoSession.hand2.length = 3 ∨ demoSession.hand2.length = 4) ∧
    (demoSession.gs.mustDiscard = true
      ↔ (demoSession.hand1.length = 4 ∨ demoSession.hand2.length = 4)) ∧
    ¬(demoSession.hand1.length = 4 ∧ demoSession.hand2.length = 4) :=
  c6_hand_sizes_and_shared_mustDiscard demoSession
    (Reachable.init (List.Perm.refl buildDeck) rfl)

/-- Claim C7: once the knock flag is set, every recorded transition
other than a restart — both draw clicks, a hand-card click, the end-turn
click with the full AI turn, the knock click and a sort — leaves it set;
no operation but the restart's `resetFlags` ever writes it back to
false. -/
theorem c7_knock_monotone :
    ∀ (s : Session) (card : Card) (g2 : Bool) (thr : Fin 5) (g7 : Bool) (l : List Card),
      s.gs.knockButtonPressed = true →
      (clickDeckTopCard s).gs.knockButtonPressed = true ∧
      (clickPileTopCard s).gs.knockButtonPressed = true ∧
      (clickHandCard card s).gs.knockButtonPressed = true ∧
      (clickEndTurn g2 thr g7 s).gs.knockButtonPressed = true ∧
      (clickKnock s).gs.knockButtonPressed = true ∧
      ({ s with hand1 := l } : Session).gs.knockButtonPressed = true := by
  intro s card g2 thr g7 l h
  refine ⟨?_, ?_, ?_, ?_, ?_, h⟩
  · rw [clickDeckTopCard]
    split
    · rw [moveFlow_guard_unchanged true DrawSource.Deck s (by simp [drawGuardFails, h])]
      exact h
    · exact h
  · rw [clickPileTopCard]
    split
    · rw [moveFlow_guard_unchanged true DrawSource.DiscardPile s (by simp [drawGuardFails, h])]
      exact h
    · exact h
  · rw [clickHandCard]
    split
    · rw [discardFlow_guard_unchanged true card s (by simp [discardGuardFails, h])]
      exact h
    · exact h
  · rw [clickEndTurn, if_neg (by simp [h])]
    exact h
  · rw [clickKnock, if_neg (by simp [h])]
    exact h

/-- Witness for C7's theorem at a concrete knocked session. -/
theorem c7_knock_monotone_witness :
    (clickDeckTopCard knockedSession).gs.knockButtonPressed = true ∧
    (clickPileTopCard knockedSession).gs.knockButtonPressed = true ∧
    (clickHandCard { suit := Suit.Clubs, rank := Rank.r2 } knockedSession).gs.knockButtonPressed
      = true ∧
    (clickEndTurn false 0 false knockedSession).gs.knockButtonPressed = true ∧
    (clickKnock knockedSession).gs.knockButtonPressed = true ∧
    ({ knockedSession with hand1 := [] } : Session).gs.knockButtonPressed = true :=
  c7_knock_monotone knockedSession { suit := Suit.Clubs, rank := Rank.r2 } false 0 false []
    (by decide)

/-- Claim C8, counterexample: on an empty deck list the code's
`moveTopCardToPlayer` moves nothing and never fires `onComplete` — its
result carries no error of any kind — whereas the claim's `drawTop`
fails with `EmptyDeckError`. -/
theorem c8_empty_deck_silent_noop_ce :
    moveTopCardToPlayer [] [] = ([], [], false) ∧
    drawTopClaim [] = Except.error DrawError.EmptyDeckError :=
  ⟨rfl, rfl⟩

/-- Claim C8 as amended: drawing from a non-empty deck list moves the
highest-depth (top) card to the end of the player list and fires
`onComplete`; drawing from an empty deck list silently returns with both
lists unchanged, `onComplete` unfired and no error raised. -/
theorem c8_moveTopCard_total_behavior :
    ∀ (deckList handList : List SpriteCard),
      (deckList = [] → moveTopCardToPlayer deckList handList = (deckList, handList, false)) ∧
      (deckList ≠ [] → ∃ t, t ∈ deckList ∧ (∀ c ∈ deckList, c.depth ≤ t.depth) ∧
        moveTopCardToPlayer deckList handList = (deckList.erase t, handList ++ [t], true)) := by
  intro deckList handList
  constructor
  · intro h
    subst h
    rfl
  · intro h
    obtain ⟨t, htop, hmem, hall⟩ := topByDepth_spec deckList h
    exact ⟨t, hmem, hall, by rw [moveTopCardToPlayer, htop]⟩

/-- Witness for C8's theorem at a concrete two-sprite deck. -/
theorem c8_moveTopCard_total_behavior_witness :
    ∃ t, t ∈ exC8deck ∧ (∀ c ∈ exC8deck, c.depth ≤ t.depth) ∧
      moveTopCardToPlayer exC8deck [] = (exC8deck.erase t, [] ++ [t], true) :=
  (c8_moveTopCard_total_behavior exC8deck []).2 (by decide)

/-- Claim C10, counterexample: in the stalled state reached from an
empty-deck session — the opponent's draw silently did nothing, the
discard step saw a three-card hand and left the session untouched — the
session still makes a further transition: the human's knock click fires
(its handler checks only `animationComplete`, the 3-card hand and the
unset knock flag; its `isPlayerTurn` test is the stale creation-time
value `true`) and mutates the session, so "the session makes no further
transitions" is false. -/
theorem c10_knock_still_fires_ce :
    stalledSession.hand2.length ≤ 3 ∧
    findWorstCardConsideringSuits stalledSession.hand2 = none ∧
    player2DiscardPhase 0 false stalledSession = stalledSession ∧
    clickKnock stalledSession ≠ stalledSession ∧
    (clickKnock stalledSession).gs.knockButtonPressed = true := by
  decide

/-- Claim C10 as amended: when the opponent's hand holds three or fewer
cards at the discard step, `findWorstCardConsideringSuits` returns
`null` and the discard-and-knock phase of `executePlayer2Turn` performs
nothing at all — no discard, no knock, no hand-back of the turn, the
session state untouched; and in the resulting stalled state (the turn
not handed back, cards not interactable) the deck, pile, hand-card and
end-turn transitions are all rejected — only the ever-live knock click
(and a restart) can still change the session. -/
theorem c10_short_hand_stalls_amended :
    ∀ (s : Session) (thr : Fin 5) (g7 : Bool), s.hand2.length ≤ 3 →
      findWorstCardConsideringSuits s.hand2 = none ∧
      player2DiscardPhase thr g7 s = s ∧
      (s.gs.isPlayerTurn = false → s.gs.cardsInteractable = false →
        ∀ (card : Card) (g2 : Bool) (thr2 : Fin 5) (g72 : Bool),
          clickDeckTopCard s = s ∧ clickPileTopCard s = s ∧
          clickHandCard card s = s ∧ clickEndTurn g2 thr2 g72 s = s) := by
  intro s thr g7 h
  have hn := findWorst_none_short s.hand2 h
  refine ⟨hn, ?_, ?_⟩
  · rw [player2DiscardPhase, hn]
  · intro hip hci card g2 thr2 g72
    refine ⟨?_, ?_, ?_, ?_⟩
    · rw [clickDeckTopCard, if_neg (by simp [hci])]
    · rw [clickPileTopCard, if_neg (by simp [hci])]
    · rw [clickHandCard, if_neg (by simp [hci])]
    · rw [clickEndTurn, if_neg (by simp [hip])]

/-- Witness for C10's theorem at the concrete stalled session. -/
theorem c10_short_hand_stalls_amended_witness :
    findWorstCardConsideringSuits stalledSession.hand2 = none ∧
    player2DiscardPhase 0 true stalledSession = stalledSession ∧
    clickDeckTopCard stalledSession = stalledSession ∧
    clickPileTopCard stalledSession = stalledSession ∧
    clickHandCard { suit := Suit.Clubs, rank := Rank.r2 } stalledSession = stalledSession ∧
    clickEndTurn false 0 false stalledSession = stalledSession := by
  obtain ⟨h1, h2, h3⟩ := c10_short_hand_stalls_amended stalledSession 0 true (by decide)
  obtain ⟨h4, h5, h6, h7⟩ :=
    h3 (by decide) (by decide) { suit := Suit.Clubs, rank := Rank.r2 } false 0 false
  exact ⟨h1, h2, h4, h5, h6, h7⟩

end ThirtyOne
